import Mathlib

/-!
# docserver: console variant (Primera_parte.cpp) and network variant (Segunda_parte.cpp)

A shallow embedding of the two programs.

* A C++ `std::string` / `std::string_view` content is a `List Char`; each C++ `char`
  is the Lean `Char` with the same code.
* Every system call and every write to a standard stream is recorded as an `Event`;
  a run of a program is the list of its events plus the way it ended.
* What the operating system answers (open, fstat, mmap, socket, bind, listen, accept)
  is an input of the model.
-/

namespace Docserver

/-- Contents of a C++ string: a sequence of chars. -/
abbrev Str := List Char

/-- Chars of a string literal of the source. -/
def str (s : String) : Str := s.toList

/-- Value of `EACCES` in `<errno.h>` (Linux). -/
def EACCES : Int := 13
/-- Value of `ENOENT` in `<errno.h>` (Linux). -/
def ENOENT : Int := 2
/-- Value of `EINVAL` in `<errno.h>` (Linux). -/
def EINVAL : Int := 22

/-- Text written by `operator<<` for an unsigned integer (`size_t`): decimal digits,
no sign, no padding. -/
def decimal (n : Nat) : Str := Nat.toDigits 10 n

/-- Text written by `operator<<` for an `int`. -/
def int_decimal (n : Int) : Str := (toString n).toList

/-- The help flag of both programs. -/
def is_help (arg : Str) : Prop := arg = str "-h" ∨ arg = str "--help"

instance : DecidablePred is_help := fun arg =>
  inferInstanceAs (Decidable (arg = str "-h" ∨ arg = str "--help"))

/-- The verbosity flag of both programs. -/
def is_verbose (arg : Str) : Prop := arg = str "-v" ∨ arg = str "--verbose"

instance : DecidablePred is_verbose := fun arg =>
  inferInstanceAs (Decidable (arg = str "-v" ∨ arg = str "--verbose"))

/-- The port flag of the network program. -/
def is_port_flag (arg : Str) : Prop := arg = str "-p" ∨ arg = str "--port"

instance : DecidablePred is_port_flag := fun arg =>
  inferInstanceAs (Decidable (arg = str "-p" ∨ arg = str "--port"))

/-- Value of a decimal digit. -/
def digit_value (c : Char) : Nat := c.toNat - '0'.toNat

/-- Value of a run of decimal digits, most significant first. -/
def digits_value (ds : List Char) : Nat :=
  ds.foldl (fun acc c => 10 * acc + digit_value c) 0

/-- Observable actions of a run. File descriptors are the `int`s the calls return;
`sys_mmap` also records whether the call succeeded. -/
inductive Event where
  | out (s : Str)
  | err (s : Str)
  | sys_open (path : Str)
  | sys_fstat (fd : Int)
  | sys_mmap (len : Nat) (fd : Int) (ok : Bool)
  | read_view
  | sys_munmap (len : Nat)
  | sys_close (fd : Int)
  | sys_socket
  | sys_bind (fd : Int) (port : Nat)
  | sys_listen (fd : Int) (backlog : Nat)
  | sys_accept (fd : Int)
  | sys_send (fd : Int) (bytes : Str)
  deriving DecidableEq, Repr

/-- Answers of the operating system to the calls `open`, `fstat`, `mmap` that `read_all`
makes for one path. `mapped fd contents`: all three succeed, `st_size` is the length of
`contents` and the mapping holds `contents`. In the failure cases `errno` is the one of
the failed call. -/
inductive FileAnswer where
  | open_fails (errno : Int)
  | fstat_fails (fd : Int) (errno : Int)
  | mmap_fails (fd : Int) (st_size : Nat) (errno : Int)
  | mapped (fd : Int) (contents : Str)
  deriving DecidableEq, Repr

/-- Everything a run wrote to standard output, in order. -/
def stdout_of : List Event → Str
  | [] => []
  | Event.out s :: rest => s ++ stdout_of rest
  | _ :: rest => stdout_of rest

/-- Everything a run wrote to standard error, in order. -/
def stderr_of : List Event → Str
  | [] => []
  | Event.err s :: rest => s ++ stderr_of rest
  | _ :: rest => stderr_of rest

/-- Lifecycle of the mapping along a trace, as the specification words it. The trace is
scanned with `live` telling whether a mapping is held: a successful `mmap` starts holding
one, every read of the view happens while the mapping is held, every `munmap` releases a
held mapping, and nothing is held at the end. -/
def lifecycle_ok : Bool → List Event → Bool
  | live, [] => !live
  | live, Event.sys_mmap _ _ true :: rest => !live && lifecycle_ok true rest
  | live, Event.read_view :: rest => live && lifecycle_ok live rest
  | live, Event.sys_munmap _ :: rest => live && lifecycle_ok false rest
  | live, _ :: rest => lifecycle_ok live rest

/-- Number of `munmap` calls in a trace. -/
def munmap_count : List Event → Nat
  | [] => 0
  | Event.sys_munmap _ :: rest => munmap_count rest + 1
  | _ :: rest => munmap_count rest

/-- The bytes handed to `send`, with the descriptor they were sent on, in order. -/
def sent_bytes : List Event → List (Int × Str)
  | [] => []
  | Event.sys_send fd bytes :: rest => (fd, bytes) :: sent_bytes rest
  | _ :: rest => sent_bytes rest

/-- The ports handed to `bind`, in order. -/
def bound_ports : List Event → List Nat
  | [] => []
  | Event.sys_bind _ port :: rest => port :: bound_ports rest
  | _ :: rest => bound_ports rest

/-- What a client does with a response: cut it at the first occurrence of `sep`, giving
what stands before and what stands after (`none` when `sep` does not occur). -/
def split_first (sep : Str) : Str → Option (Str × Str)
  | [] => none
  | c :: cs =>
    if sep.isPrefixOf (c :: cs) then some ([], (c :: cs).drop sep.length)
    else
      match split_first sep cs with
      | some (before, after) => some (c :: before, after)
      | none => none

/-- What a client does with the value of a `Content-Length` header: a non-empty run of
decimal digits read as a number. -/
def parse_decimal (s : Str) : Option Nat :=
  if s ≠ [] ∧ s.all Char.isDigit = true then some (digits_value s) else none

/-- A line of a response head: no carriage return and no line feed inside. -/
def is_line (s : Str) : Prop := '\r' ∉ s ∧ '\n' ∉ s

/-- Framing as the specification words it: a status line, exactly one `Content-Length`
header, a blank line and a body, the header value being the length of the body. -/
def framed (r : Str) : Prop :=
  ∃ status body : Str, is_line status ∧
    r = status ++ str "\r\nContent-Length: " ++ decimal body.length ++ str "\r\n\r\n" ++ body

/-- Framing without any header: a status line, a blank line and a body. -/
def bare (r : Str) : Prop :=
  ∃ status body : Str, is_line status ∧ r = status ++ str "\r\n\r\n" ++ body

/-! ## Console variant: Primera_parte.cpp -/

namespace Primera

/-- The process as far as the console variant can observe it: the events so far and the
bytes of the file mapping while it is held (`none` when nothing is mapped). -/
structure World where
  trace : List Event
  mapping : Option Str
  deriving DecidableEq, Repr

/-- Append one event. -/
def World.emit (w : World) (e : Event) : World :=
  { w with trace := w.trace ++ [e] }

/-- A `std::string_view` into the file mapping: only its size is kept, the address is
that of the one mapping of the run. -/
structure string_view where
  size : Nat
  deriving DecidableEq, Repr

/-- The class `SafeMap`: one private member `sv_`. -/
structure SafeMap where
  sv_ : string_view
  deriving DecidableEq, Repr

/-- The destructor `~SafeMap()`: `munmap` unless the view is empty. -/
def SafeMap.destroy (m : SafeMap) (w : World) : World :=
  if m.sv_.size ≠ 0 then
    { trace := w.trace ++ [Event.sys_munmap m.sv_.size], mapping := none }
  else w

/-- The member `get()`. -/
def SafeMap.get (m : SafeMap) : string_view := m.sv_

/-- The copy constructor. `SafeMap` declares a destructor and no move constructor, so
the class has no move constructor and the implicitly defined copy constructor is used for
lvalues and rvalues alike: it copies `sv_`. -/
def SafeMap.copy (m : SafeMap) : SafeMap := { sv_ := m.sv_ }

/-- The function `read_all`. On success the `return` statement builds a temporary
`SafeMap`, the returned `std::expected` copy-constructs its value from it, and the
temporary is destroyed at the end of the statement. The result is the returned
`expected` (error code or stored `SafeMap`) and the world after the call. -/
def read_all (fs : FileAnswer) (path : Str) (w : World) : Except Int SafeMap × World :=
  let w := w.emit (Event.sys_open path)
  match fs with
  | FileAnswer.open_fails e => (Except.error e, w)
  | FileAnswer.fstat_fails fd e =>
    (Except.error e, (w.emit (Event.sys_fstat fd)).emit (Event.sys_close fd))
  | FileAnswer.mmap_fails fd n e =>
    (Except.error e,
      ((w.emit (Event.sys_fstat fd)).emit (Event.sys_mmap n fd false)).emit
        (Event.sys_close fd))
  | FileAnswer.mapped fd contents =>
    let w := (w.emit (Event.sys_fstat fd)).emit (Event.sys_mmap contents.length fd true)
    let w := { w with mapping := some contents }
    let w := w.emit (Event.sys_close fd)
    let temporary : SafeMap := { sv_ := { size := contents.length } }
    let stored := temporary.copy
    let w := temporary.destroy w
    (Except.ok stored, w)

/-- How a run of the console program ends: `main` returns a code, or the program reads
through a view whose mapping is gone and the access faults. -/
inductive Outcome where
  | exit (code : Int)
  | fault
  deriving DecidableEq, Repr

/-- The function `send_response`. The header is always written. A non-empty body is read
through the view: while the mapping is held the bytes are those of the mapping; after
`munmap` the read is undefined in C++, and `dangling` is what the machine does then:
`none` for a fault, `some g` when the bytes `g` are found at the address.
`Except.ok` is a normal return, `Except.error` the world at the fault. -/
def send_response (dangling : Option Str) (header : Str) (body : string_view) (w : World) :
    Except World World :=
  let w := w.emit (Event.out (header ++ str "\n"))
  if body.size ≠ 0 then
    let w := w.emit Event.read_view
    match w.mapping with
    | some bytes => Except.ok (w.emit (Event.out (bytes.take body.size)))
    | none =>
      match dangling with
      | some g => Except.ok (w.emit (Event.out g))
      | none => Except.error w
  else Except.ok w

/-- The function `print_help`: one line on standard output. -/
def print_help : List Event :=
  [Event.out (str "Usage: docserver [-v | --verbose] [-h | --help] ARCHIVO\n")]

/-- The function `verbose_log`. It is defined in the source and never called. -/
def verbose_log (message : Str) (verbose : Bool) : List Event :=
  if verbose then [Event.err (message ++ str "\n")] else []

/-- The argument loop of `main` over `argv[1..]`, with the locals `verbose` and
`file_path`. `Except.error (events, code)` is a `return code` inside the loop. -/
def parse_loop : List Str → Bool → Str → Except (List Event × Int) (Bool × Str)
  | [], verbose, file_path => Except.ok (verbose, file_path)
  | arg :: rest, verbose, file_path =>
    if arg = str "-h" ∨ arg = str "--help" then
      Except.error (print_help, 0)
    else if arg = str "-v" ∨ arg = str "--verbose" then
      parse_loop rest true file_path
    else if file_path = [] then
      parse_loop rest verbose arg
    else
      Except.error ([Event.err (str "Error: Multiple files specified.\n")], 1)

/-- The positional arguments of the console program: every argument that is neither a
help flag nor a verbosity flag. -/
def positionals (args : List Str) : List Str :=
  args.filter (fun arg => ¬ is_help arg ∧ ¬ is_verbose arg)

/-- A finished run: its events and how it ended. -/
structure Result where
  trace : List Event
  outcome : Outcome
  deriving DecidableEq, Repr

/-- The function `main`. `strerror` is the C library function, `fs` the answers of the
operating system for the file, `dangling` as in `send_response`. The local `verbose` is
set and never read. `std::move(result.value())` selects the copy constructor, `SafeMap`
having no move constructor. Leaving `main` destroys `safe_map` and then `result` (reverse
order of construction); the `expected` destroys the `SafeMap` it stores. -/
def main (strerror : Int → Str) (fs : FileAnswer) (dangling : Option Str)
    (argv : List Str) : Result :=
  match parse_loop (argv.drop 1) false [] with
  | Except.error (events, code) => { trace := events, outcome := Outcome.exit code }
  | Except.ok (_, file_path) =>
    if file_path = [] then
      { trace := [Event.err (str "Error: No file specified.\n")], outcome := Outcome.exit 1 }
    else
      match read_all fs file_path { trace := [], mapping := none } with
      | (Except.error e, w) =>
        if e = EACCES then
          match send_response dangling (str "403 Forbidden\n") { size := 0 } w with
          | Except.ok w => { trace := w.trace, outcome := Outcome.exit 0 }
          | Except.error w => { trace := w.trace, outcome := Outcome.fault }
        else if e = ENOENT then
          match send_response dangling (str "404 Not Found\n") { size := 0 } w with
          | Except.ok w => { trace := w.trace, outcome := Outcome.exit 0 }
          | Except.error w => { trace := w.trace, outcome := Outcome.fault }
        else
          { trace := w.trace ++ [Event.err (str "Error: " ++ strerror e ++ str "\n")],
            outcome := Outcome.exit 1 }
      | (Except.ok result_value, w) =>
        let safe_map := result_value.copy
        let file_content := safe_map.get
        let header := str "Content-Length: " ++ decimal file_content.size ++ str "\n"
        match send_response dangling header file_content w with
        | Except.error w => { trace := w.trace, outcome := Outcome.fault }
        | Except.ok w =>
          let w := safe_map.destroy w
          let w := result_value.destroy w
          { trace := w.trace, outcome := Outcome.exit 0 }

end Primera

/-! ## Network variant: Segunda_parte.cpp -/

namespace Segunda

/-- The global variables `verbose`, `port` and `file_path` (`check_file_size` is never
read or written). -/
structure Globals where
  verbose : Bool
  port : Int
  file_path : Str
  deriving DecidableEq, Repr

/-- The initial values of the globals. -/
def initial_globals : Globals := { verbose := false, port := 8080, file_path := [] }

/-- The exceptions `std::stoi` throws. Both derive from `std::logic_error`. -/
inductive Exn where
  | invalid_argument
  | out_of_range
  deriving DecidableEq, Repr

/-- The C function `isspace` in the default locale. -/
def isspace (c : Char) : Bool :=
  c = ' ' || c = '\t' || c = '\n' || c = '\x0b' || c = '\x0c' || c = '\r'

/-- The library function `std::stoi(str)` (base 10): skip leading white space, take an
optional sign and the longest run of digits, ignore what follows; no digit throws
`invalid_argument`, a value outside `int` throws `out_of_range`. -/
def stoi (s : Str) : Except Exn Int :=
  let s1 := s.dropWhile isspace
  let negative := s1.head? = some '-'
  let s2 := if s1.head? = some '-' ∨ s1.head? = some '+' then s1.tail else s1
  let ds := s2.takeWhile Char.isDigit
  if ds = [] then Except.error Exn.invalid_argument
  else
    let v : Int := if negative then -(digits_value ds : Int) else (digits_value ds : Int)
    if v < -2147483648 ∨ 2147483647 < v then Except.error Exn.out_of_range
    else Except.ok v

/-- The help text `parse_args` prints, one entry per statement. The source file is
UTF-8: an accented letter is two chars there, written here by their codes. -/
def usage_lines : List Str :=
  [ str "Uso: ./docserver [-v | --verbose] [-p <puerto>] <archivo>\n",
    str "  -v, --verbose  Muestra informaci\xc3\xb3n detallada de las operaciones.\n",
    str "  -h, --help     Muestra este mensaje de ayuda.\n",
    str "  -p, --port     Especifica el puerto en el que escuchar (por defecto 8080).\n",
    str "  <archivo>      El archivo que se servir\xc3\xa1 a trav\xc3\xa9s del servidor.\n" ]

/-- How `parse_args` ends: it returns a value, returns `std::unexpected(code)`, or an
exception of `std::stoi` leaves it. -/
inductive ParseOutcome where
  | ok
  | error (code : Int)
  | threw (e : Exn)
  deriving DecidableEq, Repr

/-- The loop of `parse_args` over `argv[1..]` with the local `file_specified`, and the
check after the loop. Returns the outcome, the globals and the events. -/
def parse_loop : List Str → Globals → Bool → ParseOutcome × Globals × List Event
  | [], g, file_specified =>
    if !file_specified then (ParseOutcome.error EINVAL, g, []) else (ParseOutcome.ok, g, [])
  | arg :: rest, g, file_specified =>
    if arg = str "-h" ∨ arg = str "--help" then
      (ParseOutcome.ok, g, usage_lines.map Event.out)
    else if arg = str "-v" ∨ arg = str "--verbose" then
      parse_loop rest { g with verbose := true } file_specified
    else if arg = str "-p" ∨ arg = str "--port" then
      match rest with
      | value :: rest2 =>
        match stoi value with
        | Except.ok n => parse_loop rest2 { g with port := n } file_specified
        | Except.error e => (ParseOutcome.threw e, g, [])
      | [] => (ParseOutcome.error EINVAL, g, [])
    else
      parse_loop rest { g with file_path := arg } true

/-- The items of the command line of the network program, as its usage text describes
them: a help flag, a verbosity flag, a port flag with the argument after it as its value
(no value when it is the last argument), or a positional file argument. -/
inductive Token where
  | help
  | verbose
  | port (value : Option Str)
  | file (path : Str)
  deriving DecidableEq, Repr

/-- The command line `argv[1..]` read as items. -/
def tokens : List Str → List Token
  | [] => []
  | arg :: rest =>
    if is_help arg then Token.help :: tokens rest
    else if is_verbose arg then Token.verbose :: tokens rest
    else if is_port_flag arg then
      match rest with
      | value :: rest2 => Token.port (some value) :: tokens rest2
      | [] => [Token.port none]
    else Token.file arg :: tokens rest

/-- The positional file arguments among the items. -/
def positionals : List Token → List Str
  | [] => []
  | Token.file path :: ts => path :: positionals ts
  | _ :: ts => positionals ts

/-- The values given to port flags, in order. -/
def port_values : List Token → List Str
  | [] => []
  | Token.port (some value) :: ts => value :: port_values ts
  | _ :: ts => port_values ts

/-- A port flag whose value `std::stoi` converts, a verbosity flag or a file argument:
an item that `parse_args` steps over. -/
def Token.passable : Token → Prop
  | Token.help => False
  | Token.verbose => True
  | Token.port none => False
  | Token.port (some value) => ∃ n, stoi value = Except.ok n
  | Token.file _ => True

/-- The loop of `parse_args` told item by item; `parse_loop_eq_run_tokens` shows it is
the same function of the command line. -/
def run_tokens : List Token → Globals → Bool → ParseOutcome × Globals × List Event
  | [], g, file_specified =>
    if !file_specified then (ParseOutcome.error EINVAL, g, []) else (ParseOutcome.ok, g, [])
  | Token.help :: _, g, _ => (ParseOutcome.ok, g, usage_lines.map Event.out)
  | Token.verbose :: ts, g, file_specified =>
    run_tokens ts { g with verbose := true } file_specified
  | Token.port none :: _, g, _ => (ParseOutcome.error EINVAL, g, [])
  | Token.port (some value) :: ts, g, file_specified =>
    match stoi value with
    | Except.ok n => run_tokens ts { g with port := n } file_specified
    | Except.error e => (ParseOutcome.threw e, g, [])
  | Token.file path :: ts, g, _ => run_tokens ts { g with file_path := path } true

/-- The function `parse_args`. -/
def parse_args (argv : List Str) (g : Globals) : ParseOutcome × Globals × List Event :=
  parse_loop (argv.drop 1) g false

/-- The conversion of the `int` argument to the `uint16_t` parameter of `make_socket`. -/
def to_uint16 (p : Int) : Nat := (p % 65536).toNat

/-- Answers of the operating system to `socket`, `bind` and `listen`: a descriptor or
unit, or the `errno` of the failure. -/
structure SocketAnswers where
  socket : Except Int Int
  bind : Except Int Unit
  listen : Except Int Unit

/-- The function `make_socket`. `htons` only reorders the bytes of the port for the
address structure; the event carries the port number. -/
def make_socket (os : SocketAnswers) (port : Nat) : Except Int Int × List Event :=
  match os.socket with
  | Except.error e => (Except.error e, [Event.sys_socket])
  | Except.ok sockfd =>
    match os.bind with
    | Except.error e =>
      (Except.error e, [Event.sys_socket, Event.sys_bind sockfd port, Event.sys_close sockfd])
    | Except.ok _ => (Except.ok sockfd, [Event.sys_socket, Event.sys_bind sockfd port])

/-- The function `listen_connection`. -/
def listen_connection (os : SocketAnswers) (socket : Int) : Except Int Unit × List Event :=
  match os.listen with
  | Except.error e => (Except.error e, [Event.sys_listen socket 5])
  | Except.ok _ => (Except.ok (), [Event.sys_listen socket 5])

/-- The function `accept_connection`; `answer` is what `accept` yields. -/
def accept_connection (answer : Except Int Int) (socket : Int) :
    Except Int Int × List Event :=
  (answer, [Event.sys_accept socket])

/-- The function `read_all`: the bytes of the mapping are copied into a `std::string`
while the mapping is held, then the mapping is released and the descriptor closed. -/
def read_all (fs : FileAnswer) (path : Str) : Except Int Str × List Event :=
  match fs with
  | FileAnswer.open_fails e => (Except.error e, [Event.sys_open path])
  | FileAnswer.fstat_fails fd e =>
    (Except.error e, [Event.sys_open path, Event.sys_fstat fd, Event.sys_close fd])
  | FileAnswer.mmap_fails fd n e =>
    (Except.error e,
      [Event.sys_open path, Event.sys_fstat fd, Event.sys_mmap n fd false,
        Event.sys_close fd])
  | FileAnswer.mapped fd contents =>
    (Except.ok contents,
      [Event.sys_open path, Event.sys_fstat fd, Event.sys_mmap contents.length fd true,
        Event.read_view, Event.sys_munmap contents.length, Event.sys_close fd])

/-- The function `send_response`: the bytes handed to `send` are
`header + "\r\n\r\n" + body`. -/
def send_response (verbose : Bool) (client_sock : Int) (header body : Str) : List Event :=
  let response := header ++ str "\r\n\r\n" ++ body
  (if verbose then
      [Event.out (str "Enviando respuesta: " ++ response.take 100 ++ str "...\n")]
    else [])
    ++ [Event.sys_send client_sock response]

/-- The states a run of `main` can be in once the start-up is over: `accepting`, in the
loop with a listening socket; `terminated`, `main` has returned `code`; `aborted`, an
exception nobody catches has ended the process (`std::terminate`). -/
inductive Phase where
  | accepting (sockfd : Int)
  | terminated (code : Int)
  | aborted (e : Exn)
  deriving DecidableEq, Repr

/-- What the environment does in one turn of the accept loop: the answer of `accept`
(client descriptor or `errno`) and the answers to the file calls of `read_all`. -/
structure Turn where
  accept : Except Int Int
  file : FileAnswer

/-- The `try` block of the accept loop for one accepted client. No operation in it
throws a `std::runtime_error`, so the `catch` clause is never entered. -/
def respond (g : Globals) (client_sock : Int) (fs : FileAnswer) : List Event :=
  match read_all fs g.file_path with
  | (Except.error _, events) =>
    events ++ send_response g.verbose client_sock
      (str "HTTP/1.1 500 Internal Server Error") (str "Error al leer el archivo.")
  | (Except.ok body, events) =>
    events ++ send_response g.verbose client_sock
        (str "HTTP/1.1 200 OK\r\nContent-Length: " ++ decimal body.length) body
      ++ (if g.verbose then
            [Event.out (str "Contenido del archivo:\n" ++ body ++ str "\n"),
              Event.out (str "Bytes enviados: " ++ decimal body.length ++ str "\n")]
          else [])

/-- One turn of the `while (true)` loop of `main` in the state `accepting sockfd`. -/
def step (strerror : Int → Str) (g : Globals) (sockfd : Int) (t : Turn) :
    List Event × Phase :=
  match accept_connection t.accept sockfd with
  | (Except.error e, events) =>
    (events ++ [Event.err (str "Error al aceptar la conexi\xc3\xb3n: " ++ strerror e ++ str "\n"),
        Event.sys_close sockfd],
      Phase.terminated e)
  | (Except.ok client_sock, events) =>
    (events ++ respond g client_sock t.file ++ [Event.sys_close client_sock],
      Phase.accepting sockfd)

/-- The accept loop over the turns the environment supplies. When they are used up the
server is blocked in `accept`, still in the state `accepting`. -/
def accept_loop (strerror : Int → Str) (g : Globals) (sockfd : Int) :
    List Turn → List Event × Phase
  | [] => ([], Phase.accepting sockfd)
  | t :: rest =>
    match step strerror g sockfd t with
    | (events, Phase.accepting s) =>
      let (more, phase) := accept_loop strerror g s rest
      (events ++ more, phase)
    | (events, phase) => (events, phase)

/-- A run of the server: its events and the state it is in after them. -/
structure Result where
  trace : List Event
  phase : Phase
  deriving DecidableEq, Repr

/-- The function `main`. -/
def main (strerror : Int → Str) (os : SocketAnswers) (turns : List Turn)
    (argv : List Str) : Result :=
  match parse_args argv initial_globals with
  | (ParseOutcome.threw e, _, events) => { trace := events, phase := Phase.aborted e }
  | (ParseOutcome.error code, _, events) =>
    { trace := events ++
        [Event.err (str "Error al analizar argumentos: " ++ strerror code ++ str "\n")],
      phase := Phase.terminated code }
  | (ParseOutcome.ok, g, events) =>
    match make_socket os (to_uint16 g.port) with
    | (Except.error code, events1) =>
      { trace := events ++ events1 ++
          [Event.err (str "Error al crear el socket: " ++ strerror code ++ str "\n")],
        phase := Phase.terminated code }
    | (Except.ok sockfd, events1) =>
      match listen_connection os sockfd with
      | (Except.error code, events2) =>
        { trace := events ++ events1 ++ events2 ++
            [Event.err (str "Error al poner el socket a la escucha: " ++ strerror code
                ++ str "\n"),
              Event.sys_close sockfd],
          phase := Phase.terminated code }
      | (Except.ok _, events2) =>
        let (events3, phase) := accept_loop strerror g sockfd turns
        { trace := events ++ events1 ++ events2 ++
            [Event.out (str "Escuchando en el puerto " ++ int_decimal g.port ++ str "...\n")]
            ++ events3,
          phase := phase }

end Segunda

end Docserver

/-! ## Lemmas on decimal text -/

namespace Docserver

theorem toDigitsCore_succ (fuel n : Nat) (acc : List Char) :
    Nat.toDigitsCore 10 (fuel + 1) n acc =
      if n / 10 = 0 then (n % 10).digitChar :: acc
      else Nat.toDigitsCore 10 fuel (n / 10) ((n % 10).digitChar :: acc) := by
  simp [Nat.toDigitsCore]

theorem digitChar_isDigit (k : Nat) (h : k < 10) : (Nat.digitChar k).isDigit = true := by
  interval_cases k <;> decide

theorem digit_value_digitChar (k : Nat) (h : k < 10) : digit_value (Nat.digitChar k) = k := by
  interval_cases k <;> decide

theorem isDigit_ne_cr (c : Char) (h : c.isDigit = true) : c ≠ '\r' := by
  intro hc
  subst hc
  exact absurd h (by decide)

theorem isDigit_ne_lf (c : Char) (h : c.isDigit = true) : c ≠ '\n' := by
  intro hc
  subst hc
  exact absurd h (by decide)

/-- The digits are pushed in front of the accumulator. -/
theorem toDigitsCore_append (fuel : Nat) :
    ∀ (n : Nat) (acc : List Char),
      Nat.toDigitsCore 10 fuel n acc = Nat.toDigitsCore 10 fuel n [] ++ acc := by
  induction fuel with
  | zero => intro n acc; simp [Nat.toDigitsCore]
  | succ fuel ih =>
    intro n acc
    rw [toDigitsCore_succ, toDigitsCore_succ]
    by_cases h : n / 10 = 0
    · simp [h]
    · simp only [h, if_false]
      rw [ih (n / 10) ((n % 10).digitChar :: acc), ih (n / 10) [(n % 10).digitChar]]
      simp

theorem toDigitsCore_ne_nil (fuel n : Nat) :
    Nat.toDigitsCore 10 (fuel + 1) n [] ≠ [] := by
  rw [toDigitsCore_succ]
  by_cases h : n / 10 = 0
  · simp [h]
  · simp only [h, if_false]
    rw [toDigitsCore_append]
    simp

theorem toDigitsCore_all_digit (fuel : Nat) :
    ∀ n : Nat, ∀ c ∈ Nat.toDigitsCore 10 fuel n [], c.isDigit = true := by
  induction fuel with
  | zero => intro n c hc; simp [Nat.toDigitsCore] at hc
  | succ fuel ih =>
    intro n c hc
    rw [toDigitsCore_succ] at hc
    have hd : ((n % 10).digitChar).isDigit = true :=
      digitChar_isDigit _ (Nat.mod_lt _ (by decide))
    by_cases h : n / 10 = 0
    · simp only [h, if_true, List.mem_singleton] at hc
      rw [hc]; exact hd
    · simp only [h, if_false] at hc
      rw [toDigitsCore_append] at hc
      rcases List.mem_append.mp hc with hc | hc
      · exact ih _ c hc
      · rw [List.mem_singleton] at hc
        rw [hc]; exact hd

theorem digits_value_append (xs ys : List Char) :
    digits_value (xs ++ ys) =
      ys.foldl (fun acc c => 10 * acc + digit_value c) (digits_value xs) := by
  simp [digits_value, List.foldl_append]

theorem toDigitsCore_value (fuel : Nat) :
    ∀ n : Nat, n < fuel → digits_value (Nat.toDigitsCore 10 fuel n []) = n := by
  induction fuel with
  | zero => intro n h; omega
  | succ fuel ih =>
    intro n hn
    rw [toDigitsCore_succ]
    have hd := digit_value_digitChar (n % 10) (Nat.mod_lt _ (by decide))
    by_cases h : n / 10 = 0
    · simp only [h, if_true]
      simp [digits_value, hd]
      omega
    · simp only [h, if_false]
      rw [toDigitsCore_append, digits_value_append, ih (n / 10) (by omega)]
      simp [hd]
      omega

theorem decimal_ne_nil (n : Nat) : decimal n ≠ [] := toDigitsCore_ne_nil n n

theorem decimal_all_digit (n : Nat) : ∀ c ∈ decimal n, c.isDigit = true :=
  toDigitsCore_all_digit (n + 1) n

theorem decimal_value (n : Nat) : digits_value (decimal n) = n :=
  toDigitsCore_value (n + 1) n (Nat.lt_succ_self n)

theorem parse_decimal_decimal (n : Nat) : parse_decimal (decimal n) = some n := by
  unfold parse_decimal
  have h1 := decimal_ne_nil n
  have h2 : (decimal n).all Char.isDigit = true := by
    rw [List.all_eq_true]
    exact decimal_all_digit n
  simp [h1, h2, decimal_value]

theorem decimal_no_cr (n : Nat) : '\r' ∉ decimal n := fun h =>
  isDigit_ne_cr _ (decimal_all_digit n _ h) rfl

theorem decimal_no_lf (n : Nat) : '\n' ∉ decimal n := fun h =>
  isDigit_ne_lf _ (decimal_all_digit n _ h) rfl

end Docserver

/-! ## Lemmas on cutting a response at the blank line -/

namespace Docserver

theorem sent_bytes_append (xs ys : List Event) :
    sent_bytes (xs ++ ys) = sent_bytes xs ++ sent_bytes ys := by
  induction xs with
  | nil => rfl
  | cons e xs ih => cases e <;> simp [sent_bytes, ih]

/-- A char other than a carriage return is stepped over. -/
theorem split_first_cons_ne (c : Char) (t : Str) (hc : c ≠ '\r') :
    split_first (str "\r\n\r\n") (c :: t) =
      (split_first (str "\r\n\r\n") t).map (fun p => (c :: p.1, p.2)) := by
  have hb : ('\r' == c) = false := by
    rw [beq_eq_false_iff_ne]
    exact fun h => hc h.symm
  rw [split_first]
  simp only [str, String.toList, List.isPrefixOf, hb, Bool.false_and, Bool.false_eq_true,
    if_false]
  cases split_first ['\r', '\n', '\r', '\n'] t <;> rfl

/-- A line end followed by something else than a second line end is stepped over. -/
theorem split_first_crlf_ne (c : Char) (t : Str) (hc : c ≠ '\r') :
    split_first (str "\r\n\r\n") ('\r' :: '\n' :: c :: t) =
      (split_first (str "\r\n\r\n") t).map (fun p => ('\r' :: '\n' :: c :: p.1, p.2)) := by
  have hb : ('\r' == c) = false := by
    rw [beq_eq_false_iff_ne]
    exact fun h => hc h.symm
  rw [split_first]
  simp only [str, String.toList, List.isPrefixOf, hb, Bool.false_and, Bool.and_false,
    Bool.false_eq_true, if_false]
  have h1 := split_first_cons_ne '\n' (c :: t) (by decide)
  have h2 := split_first_cons_ne c t hc
  simp only [str, String.toList] at h1 h2
  rw [h1, h2]
  cases split_first ['\r', '\n', '\r', '\n'] t <;> rfl

/-- The blank line itself is found at once. -/
theorem split_first_here (t : Str) :
    split_first (str "\r\n\r\n") (str "\r\n\r\n" ++ t) = some ([], t) := by
  simp [str, split_first, List.isPrefixOf]

/-- A head without carriage return is stepped over whole. -/
theorem split_first_line (h t : Str) (hh : '\r' ∉ h) :
    split_first (str "\r\n\r\n") (h ++ str "\r\n\r\n" ++ t) = some (h, t) := by
  induction h with
  | nil => simpa using split_first_here t
  | cons c h ih =>
    have hc : c ≠ '\r' := fun e => hh (by simp [e])
    have hh2 : '\r' ∉ h := fun e => hh (List.mem_cons_of_mem _ e)
    rw [List.cons_append, List.cons_append, split_first_cons_ne c _ hc, ih hh2]
    rfl

/-- Two texts that agree up to their first carriage return. -/
theorem eq_of_append_cr (a b x y : Str) (ha : '\r' ∉ a) (hb : '\r' ∉ b)
    (h : a ++ '\r' :: x = b ++ '\r' :: y) : a = b ∧ x = y := by
  induction a generalizing b with
  | nil =>
    cases b with
    | nil => simpa using h
    | cons c b =>
      simp only [List.nil_append, List.cons_append, List.cons.injEq] at h
      exact absurd (by simp [← h.1]) hb
  | cons c a ih =>
    cases b with
    | nil =>
      simp only [List.nil_append, List.cons_append, List.cons.injEq] at h
      exact absurd (by simp [h.1]) ha
    | cons d b =>
      simp only [List.cons_append, List.cons.injEq] at h
      have := ih b (fun e => ha (List.mem_cons_of_mem _ e))
        (fun e => hb (List.mem_cons_of_mem _ e)) h.2
      exact ⟨by rw [h.1, this.1], this.2⟩

/-- The response of the error path carries no `Content-Length` header. -/
theorem error_response_not_framed :
    ¬ framed (str "HTTP/1.1 500 Internal Server Error" ++ str "\r\n\r\n"
      ++ str "Error al leer el archivo.") := by
  rintro ⟨status, body, ⟨hcr, -⟩, h⟩
  have h2 : str "HTTP/1.1 500 Internal Server Error" ++ '\r' :: str "\n\r\nError al leer el archivo."
      = status ++ '\r' :: (str "\nContent-Length: " ++ decimal body.length
          ++ str "\r\n\r\n" ++ body) :=
    (show _ = _ by simp [str]).trans (h.trans (by simp [str]))
  have h3 := (eq_of_append_cr _ _ _ _ (by simp [str]) hcr h2).2
  simp [str] at h3

end Docserver

/-! ## The network variant: responses and the accept loop -/

namespace Docserver

/-- A head without carriage return is stepped over, whatever follows. -/
theorem split_first_skip (h rest : Str) (hh : '\r' ∉ h) :
    split_first (str "\r\n\r\n") (h ++ rest) =
      (split_first (str "\r\n\r\n") rest).map (fun p => (h ++ p.1, p.2)) := by
  induction h with
  | nil => simp
  | cons c h ih =>
    have hc : c ≠ '\r' := fun e => hh (by simp [e])
    have hh2 : '\r' ∉ h := fun e => hh (List.mem_cons_of_mem _ e)
    rw [List.cons_append, split_first_cons_ne c _ hc, ih hh2]
    cases split_first (str "\r\n\r\n") rest <;> rfl

/-- The first blank line of a 200 response is the one `send_response` inserts. -/
theorem split_first_ok_response (n : Nat) (F : Str) :
    split_first (str "\r\n\r\n")
        (str "HTTP/1.1 200 OK\r\nContent-Length: " ++ decimal n ++ str "\r\n\r\n" ++ F)
      = some (str "HTTP/1.1 200 OK\r\nContent-Length: " ++ decimal n, F) := by
  have e1 : str "HTTP/1.1 200 OK\r\nContent-Length: " ++ decimal n ++ str "\r\n\r\n" ++ F
      = str "HTTP/1.1 200 OK" ++ ('\r' :: '\n' :: 'C' ::
          ((str "ontent-Length: " ++ decimal n) ++ str "\r\n\r\n" ++ F)) := by
    simp [str]
  have e2 : str "HTTP/1.1 200 OK\r\nContent-Length: " ++ decimal n
      = str "HTTP/1.1 200 OK" ++ ('\r' :: '\n' :: 'C' :: (str "ontent-Length: " ++ decimal n)) := by
    simp [str]
  have hfree : '\r' ∉ str "ontent-Length: " ++ decimal n := by
    intro h
    rcases List.mem_append.mp h with h | h
    · simp [str] at h
    · exact decimal_no_cr n h
  rw [e1, e2, split_first_skip _ _ (by simp [str]), split_first_crlf_ne 'C' _ (by decide),
    split_first_line _ _ hfree]
  rfl

/-- What `respond` hands to `send` when `read_all` succeeds. -/
theorem sent_respond_ok (g : Segunda.Globals) (client : Int) (fs : FileAnswer) (F : Str)
    (h : (Segunda.read_all fs g.file_path).1 = Except.ok F) :
    sent_bytes (Segunda.respond g client fs) =
      [(client, str "HTTP/1.1 200 OK\r\nContent-Length: " ++ decimal F.length
          ++ str "\r\n\r\n" ++ F)] := by
  cases fs with
  | open_fails e => simp [Segunda.read_all] at h
  | fstat_fails fd e => simp [Segunda.read_all] at h
  | mmap_fails fd n e => simp [Segunda.read_all] at h
  | mapped fd contents =>
    simp only [Segunda.read_all, Except.ok.injEq] at h
    subst h
    cases hv : g.verbose <;>
      simp [Segunda.respond, Segunda.read_all, Segunda.send_response, sent_bytes, hv,
        sent_bytes_append]

/-- What `respond` hands to `send` when `read_all` fails. -/
theorem sent_respond_error (g : Segunda.Globals) (client : Int) (fs : FileAnswer) (e : Int)
    (h : (Segunda.read_all fs g.file_path).1 = Except.error e) :
    sent_bytes (Segunda.respond g client fs) =
      [(client, str "HTTP/1.1 500 Internal Server Error" ++ str "\r\n\r\n"
          ++ str "Error al leer el archivo.")] := by
  cases fs with
  | mapped fd contents => simp [Segunda.read_all] at h
  | open_fails e =>
    cases hv : g.verbose <;>
      simp [Segunda.respond, Segunda.read_all, Segunda.send_response, sent_bytes, hv]
  | fstat_fails fd e =>
    cases hv : g.verbose <;>
      simp [Segunda.respond, Segunda.read_all, Segunda.send_response, sent_bytes, hv]
  | mmap_fails fd n e =>
    cases hv : g.verbose <;>
      simp [Segunda.respond, Segunda.read_all, Segunda.send_response, sent_bytes, hv]

/-- A turn whose `accept` succeeds: the events and the next state. -/
theorem step_accepted (strerror : Int → Str) (g : Segunda.Globals) (sockfd client : Int)
    (fs : FileAnswer) :
    Segunda.step strerror g sockfd { accept := Except.ok client, file := fs } =
      ([Event.sys_accept sockfd] ++ Segunda.respond g client fs ++ [Event.sys_close client],
        Segunda.Phase.accepting sockfd) := rfl

/-- What a turn whose `accept` succeeds hands to `send`. -/
theorem sent_step_accepted (strerror : Int → Str) (g : Segunda.Globals) (sockfd client : Int)
    (fs : FileAnswer) :
    sent_bytes (Segunda.step strerror g sockfd { accept := Except.ok client, file := fs }).1 =
      sent_bytes (Segunda.respond g client fs) := by
  rw [step_accepted]
  simp [sent_bytes_append, sent_bytes]

/-- The one response of a turn whose `read_all` succeeds, with the status line set
apart. -/
theorem sent_step_ok_shape (strerror : Int → Str) (g : Segunda.Globals)
    (sockfd client : Int) (fs : FileAnswer) (F : Str)
    (h : (Segunda.read_all fs g.file_path).1 = Except.ok F) :
    sent_bytes (Segunda.step strerror g sockfd { accept := Except.ok client, file := fs }).1 =
      [(client, str "HTTP/1.1 200 OK" ++ str "\r\nContent-Length: " ++ decimal F.length
          ++ str "\r\n\r\n" ++ F)] := by
  rw [sent_step_accepted, sent_respond_ok g client fs F h]
  simp [str]

/-- The accept loop leaves the state `accepting` only through a failed `accept`. -/
theorem accept_loop_phase (strerror : Int → Str) (g : Segunda.Globals) (sockfd : Int)
    (turns : List Segunda.Turn) :
    (Segunda.accept_loop strerror g sockfd turns).2 = Segunda.Phase.accepting sockfd ∨
      ∃ t ∈ turns, ∃ c, t.accept = Except.error c ∧
        (Segunda.accept_loop strerror g sockfd turns).2 = Segunda.Phase.terminated c := by
  induction turns with
  | nil => left; rfl
  | cons t rest ih =>
    obtain ⟨acc, file⟩ := t
    cases acc with
    | error c =>
      right
      exact ⟨_, List.mem_cons_self _ _, c, rfl, rfl⟩
    | ok client =>
      have hstep : Segunda.accept_loop strerror g sockfd
          ({ accept := Except.ok client, file := file } :: rest) =
          ((Segunda.step strerror g sockfd { accept := Except.ok client, file := file }).1
            ++ (Segunda.accept_loop strerror g sockfd rest).1,
            (Segunda.accept_loop strerror g sockfd rest).2) := by
        rw [Segunda.accept_loop, step_accepted]
      rw [hstep]
      rcases ih with ih | ⟨t, ht, c, hc, hp⟩
      · left; exact ih
      · right
        exact ⟨t, List.mem_cons_of_mem _ ht, c, hc, hp⟩

end Docserver

/-! ## The network variant: the command line -/

namespace Docserver

/-- The loop of `parse_args` is the item-by-item reading of the command line. -/
theorem parse_loop_eq_run_tokens (args : List Str) (g : Segunda.Globals) (fs : Bool) :
    Segunda.parse_loop args g fs = Segunda.run_tokens (Segunda.tokens args) g fs := by
  induction args, g, fs using Segunda.parse_loop.induct with
  | case1 g fs h =>
    rw [Segunda.parse_loop.eq_def, Segunda.tokens.eq_def]
    simp [Segunda.run_tokens, h]
  | case2 g fs h =>
    rw [Segunda.parse_loop.eq_def, Segunda.tokens.eq_def]
    simp [Segunda.run_tokens, h]
  | case3 arg rest g fs hh =>
    rw [Segunda.parse_loop.eq_def, Segunda.tokens.eq_def]
    simp [Segunda.run_tokens, is_help, hh]
  | case4 arg rest g fs hh hv ih =>
    rw [Segunda.parse_loop.eq_def, Segunda.tokens.eq_def]
    simp [Segunda.run_tokens, is_help, is_verbose, hh, hv, ih]
  | case5 arg g fs hh hv hp value rest2 n hn ih =>
    rw [Segunda.parse_loop.eq_def, Segunda.tokens.eq_def]
    simp [Segunda.run_tokens, is_help, is_verbose, is_port_flag, hh, hv, hp, hn, ih]
  | case6 arg g fs hh hv hp value rest2 e he =>
    rw [Segunda.parse_loop.eq_def, Segunda.tokens.eq_def]
    simp [Segunda.run_tokens, is_help, is_verbose, is_port_flag, hh, hv, hp, he]
  | case7 arg g fs hh hv hp =>
    rw [Segunda.parse_loop.eq_def, Segunda.tokens.eq_def]
    simp [Segunda.run_tokens, is_help, is_verbose, is_port_flag, hh, hv, hp]
  | case8 arg rest g fs hh hv hp ih =>
    rw [Segunda.parse_loop.eq_def, Segunda.tokens.eq_def]
    simp [Segunda.run_tokens, is_help, is_verbose, is_port_flag, hh, hv, hp, ih]

/-- The function `parse_args` told item by item. -/
theorem parse_args_eq (argv : List Str) (g : Segunda.Globals) :
    Segunda.parse_args argv g =
      Segunda.run_tokens (Segunda.tokens (argv.drop 1)) g false :=
  parse_loop_eq_run_tokens _ g false

end Docserver

namespace Docserver

/-- Items that `parse_args` steps over in front of a help flag: the help text is printed,
the outcome is a success and nothing else happens. -/
theorem run_tokens_help (pre post : List Segunda.Token)
    (hpre : ∀ t ∈ pre, t.passable) :
    ∀ (g : Segunda.Globals) (fs : Bool),
      (Segunda.run_tokens (pre ++ Segunda.Token.help :: post) g fs).1 = Segunda.ParseOutcome.ok ∧
      (Segunda.run_tokens (pre ++ Segunda.Token.help :: post) g fs).2.2 =
        Segunda.usage_lines.map Event.out := by
  induction pre with
  | nil => intro g fs; exact ⟨rfl, rfl⟩
  | cons t pre ih =>
    have ih2 := ih (fun t ht => hpre t (List.mem_cons_of_mem _ ht))
    have ht := hpre t (List.mem_cons_self _ _)
    intro g fs
    cases t with
    | help => exact absurd ht (by simp [Segunda.Token.passable])
    | verbose => exact ih2 _ _
    | file path => exact ih2 _ _
    | port value =>
      cases value with
      | none => exact absurd ht (by simp [Segunda.Token.passable])
      | some v =>
        obtain ⟨n, hn⟩ := ht
        simp only [List.cons_append, Segunda.run_tokens, hn]
        exact ih2 _ _

/-- Without a help flag nothing is written by `parse_args`. -/
theorem run_tokens_silent (ts : List Segunda.Token) (hh : Segunda.Token.help ∉ ts) :
    ∀ (g : Segunda.Globals) (fs : Bool), (Segunda.run_tokens ts g fs).2.2 = [] := by
  induction ts with
  | nil => intro g fs; cases fs <;> rfl
  | cons t ts ih =>
    have ih2 := ih (fun h => hh (List.mem_cons_of_mem _ h))
    intro g fs
    cases t with
    | help => exact absurd (List.mem_cons_self _ _) hh
    | verbose => exact ih2 _ _
    | file path => exact ih2 _ _
    | port value =>
      cases value with
      | none => rfl
      | some v =>
        simp only [Segunda.run_tokens]
        cases Segunda.stoi v with
        | error e => rfl
        | ok n => exact ih2 _ _

/-- Without a help flag, an accepted command line leaves in `port` the converted value
of the last port flag, or the port it started with when there is none. -/
theorem run_tokens_port (ts : List Segunda.Token) (hh : Segunda.Token.help ∉ ts) :
    ∀ (g : Segunda.Globals) (fs : Bool),
      (Segunda.run_tokens ts g fs).1 = Segunda.ParseOutcome.ok →
      match (Segunda.port_values ts).getLast? with
      | some v => Segunda.stoi v = Except.ok (Segunda.run_tokens ts g fs).2.1.port
      | none => (Segunda.run_tokens ts g fs).2.1.port = g.port := by
  induction ts with
  | nil => intro g fs _; cases fs <;> simp [Segunda.run_tokens, Segunda.port_values]
  | cons t ts ih =>
    have ih2 := ih (fun h => hh (List.mem_cons_of_mem _ h))
    intro g fs hok
    cases t with
    | help => exact absurd (List.mem_cons_self _ _) hh
    | verbose => exact ih2 _ _ hok
    | file path => exact ih2 _ _ hok
    | port value =>
      cases value with
      | none => simp [Segunda.run_tokens] at hok
      | some v =>
        simp only [Segunda.run_tokens] at hok ⊢
        cases hv : Segunda.stoi v with
        | error e => rw [hv] at hok; simp at hok
        | ok n =>
          rw [hv] at hok
          have h := ih2 { g with port := n } fs hok
          simp only [Segunda.port_values]
          cases hp : Segunda.port_values ts with
          | nil =>
            rw [hp] at h
            simp only [List.getLast?_nil] at h
            simp only [List.getLast?_singleton]
            rw [h, hv]
          | cons a l =>
            rw [hp] at h
            rw [List.getLast?_cons_cons]
            exact h

end Docserver

/-! ## The network variant: `main` -/

namespace Docserver

theorem bound_ports_append (xs ys : List Event) :
    bound_ports (xs ++ ys) = bound_ports xs ++ bound_ports ys := by
  induction xs with
  | nil => rfl
  | cons e xs ih => cases e <;> simp [bound_ports, ih]

theorem bound_ports_respond (g : Segunda.Globals) (client : Int) (fs : FileAnswer) :
    bound_ports (Segunda.respond g client fs) = [] := by
  cases fs <;> cases hv : g.verbose <;>
    simp [Segunda.respond, Segunda.read_all, Segunda.send_response, bound_ports, hv,
      bound_ports_append]

theorem bound_ports_accept_loop (strerror : Int → Str) (g : Segunda.Globals) (sockfd : Int)
    (turns : List Segunda.Turn) :
    bound_ports (Segunda.accept_loop strerror g sockfd turns).1 = [] := by
  induction turns with
  | nil => rfl
  | cons t rest ih =>
    obtain ⟨acc, file⟩ := t
    cases acc with
    | error c =>
      simp [Segunda.accept_loop, Segunda.step, Segunda.accept_connection, bound_ports]
    | ok client =>
      rw [Segunda.accept_loop, step_accepted]
      simp [bound_ports_append, bound_ports_respond, bound_ports, ih]

/-- The run of `main` when `parse_args` returns an error code. -/
theorem main_parse_error (strerror : Int → Str) (os : Segunda.SocketAnswers)
    (turns : List Segunda.Turn) (argv : List Str) (c : Int) (g : Segunda.Globals)
    (events : List Event)
    (h : Segunda.parse_args argv Segunda.initial_globals =
      (Segunda.ParseOutcome.error c, g, events)) :
    Segunda.main strerror os turns argv =
      { trace := events ++
          [Event.err (str "Error al analizar argumentos: " ++ strerror c ++ str "\n")],
        phase := Segunda.Phase.terminated c } := by
  simp [Segunda.main, h]

/-- The run of `main` when an exception leaves `parse_args`. -/
theorem main_parse_threw (strerror : Int → Str) (os : Segunda.SocketAnswers)
    (turns : List Segunda.Turn) (argv : List Str) (e : Segunda.Exn) (g : Segunda.Globals)
    (events : List Event)
    (h : Segunda.parse_args argv Segunda.initial_globals =
      (Segunda.ParseOutcome.threw e, g, events)) :
    Segunda.main strerror os turns argv =
      { trace := events, phase := Segunda.Phase.aborted e } := by
  simp [Segunda.main, h]

/-- The ports `main` hands to `bind` when `parse_args` succeeds and `socket` succeeds. -/
theorem main_bound_ports (strerror : Int → Str) (os : Segunda.SocketAnswers)
    (turns : List Segunda.Turn) (argv : List Str) (g : Segunda.Globals)
    (events : List Event) (sockfd : Int)
    (h : Segunda.parse_args argv Segunda.initial_globals = (Segunda.ParseOutcome.ok, g, events))
    (hev : bound_ports events = [])
    (hs : os.socket = Except.ok sockfd) :
    bound_ports (Segunda.main strerror os turns argv).trace = [Segunda.to_uint16 g.port] := by
  obtain ⟨sock, bind, listen⟩ := os
  simp only at hs
  subst hs
  cases bind <;> cases listen <;>
    simp [Segunda.main, h, Segunda.make_socket, Segunda.listen_connection, bound_ports_append,
      bound_ports, hev, bound_ports_accept_loop]

/-- The state `terminated` is entered from a failure of `parse_args`, `socket`, `bind`,
`listen` or `accept`, and from nothing else. -/
theorem main_terminated (strerror : Int → Str) (os : Segunda.SocketAnswers)
    (turns : List Segunda.Turn) (argv : List Str) (c : Int)
    (h : (Segunda.main strerror os turns argv).phase = Segunda.Phase.terminated c) :
    (Segunda.parse_args argv Segunda.initial_globals).1 = Segunda.ParseOutcome.error c ∨
      os.socket = Except.error c ∨ os.bind = Except.error c ∨ os.listen = Except.error c ∨
      ∃ t ∈ turns, t.accept = Except.error c := by
  obtain ⟨sock, bind, listen⟩ := os
  rcases hpa : Segunda.parse_args argv Segunda.initial_globals with ⟨po, g, events⟩
  cases po with
  | threw e => simp [Segunda.main, hpa] at h
  | error code =>
    left
    simpa [Segunda.main, hpa] using h
  | ok =>
    right
    cases sock with
    | error code =>
      left
      simpa [Segunda.main, hpa, Segunda.make_socket] using h
    | ok sockfd =>
      right
      cases bind with
      | error code =>
        left
        simpa [Segunda.main, hpa, Segunda.make_socket] using h
      | ok u =>
        right
        cases listen with
        | error code =>
          left
          simpa [Segunda.main, hpa, Segunda.make_socket, Segunda.listen_connection] using h
        | ok u2 =>
          right
          simp only [Segunda.main, hpa, Segunda.make_socket, Segunda.listen_connection] at h
          rcases accept_loop_phase strerror g sockfd turns with hacc | ⟨t, ht, c2, hc2, hp⟩
          · rw [hacc] at h
            simp at h
          · rw [hp] at h
            simp only [Segunda.Phase.terminated.injEq] at h
            subst h
            exact ⟨t, ht, hc2⟩

end Docserver

/-! ## The console variant: the command line -/

namespace Docserver

theorem console_positionals_cons (arg : Str) (rest : List Str) :
    Primera.positionals (arg :: rest) =
      if ¬ is_help arg ∧ ¬ is_verbose arg then arg :: Primera.positionals rest
      else Primera.positionals rest := by
  by_cases h : ¬ is_help arg ∧ ¬ is_verbose arg
  · simp [Primera.positionals, List.filter_cons, h]
  · simp only [Primera.positionals, List.filter_cons, h, decide_False, if_false]
    simp

/-- One step of the argument loop on a verbosity flag. -/
theorem console_loop_verbose (arg : Str) (rest : List Str) (v : Bool) (fp : Str)
    (hh : ¬ is_help arg) (hv : is_verbose arg) :
    Primera.parse_loop (arg :: rest) v fp = Primera.parse_loop rest true fp := by
  have hh2 : ¬ (arg = str "-h" ∨ arg = str "--help") := hh
  have hv2 : arg = str "-v" ∨ arg = str "--verbose" := hv
  simp only [Primera.parse_loop, hh2, hv2, if_true, if_false]

/-- One step of the argument loop on a positional argument. -/
theorem console_loop_positional (arg : Str) (rest : List Str) (v : Bool) (fp : Str)
    (hh : ¬ is_help arg) (hv : ¬ is_verbose arg) :
    Primera.parse_loop (arg :: rest) v fp =
      if fp = [] then Primera.parse_loop rest v arg
      else Except.error ([Event.err (str "Error: Multiple files specified.\n")], 1) := by
  have hh2 : ¬ (arg = str "-h" ∨ arg = str "--help") := hh
  have hv2 : ¬ (arg = str "-v" ∨ arg = str "--verbose") := hv
  simp only [Primera.parse_loop, hh2, hv2, if_false]

/-- One step of the argument loop on a help flag. -/
theorem console_loop_help (arg : Str) (rest : List Str) (v : Bool) (fp : Str)
    (hh : is_help arg) :
    Primera.parse_loop (arg :: rest) v fp = Except.error (Primera.print_help, 0) := by
  have hh2 : arg = str "-h" ∨ arg = str "--help" := hh
  simp only [Primera.parse_loop, hh2, if_true]

/-- Only verbosity flags in front of a help flag: the help flag is reached. -/
theorem console_help_after_flags (pre : List Str) (h : Str) (post : List Str)
    (hh : is_help h) (hpre : ∀ a ∈ pre, ¬ is_help a) (hpos : Primera.positionals pre = []) :
    ∀ (v : Bool) (fp : Str),
      Primera.parse_loop (pre ++ h :: post) v fp =
        Except.error (Primera.print_help, 0) := by
  induction pre with
  | nil => intro v fp; exact console_loop_help h post v fp hh
  | cons a pre ih =>
    intro v fp
    have ha := hpre a (List.mem_cons_self _ _)
    have hpre2 : ∀ a ∈ pre, ¬ is_help a := fun b hb => hpre b (List.mem_cons_of_mem _ hb)
    rw [console_positionals_cons] at hpos
    by_cases hv : is_verbose a
    · simp only [hv, not_true_eq_false, and_false, if_false] at hpos
      rw [List.cons_append, console_loop_verbose a _ v fp ha hv]
      exact ih hpre2 hpos _ _
    · simp [ha, hv] at hpos

/-- At most one positional argument in front of a help flag: the help flag is reached. -/
theorem console_help_reached (pre : List Str) (h : Str) (post : List Str)
    (hh : is_help h) (hpre : ∀ a ∈ pre, ¬ is_help a)
    (hpos : (Primera.positionals pre).length ≤ 1) :
    ∀ v : Bool,
      Primera.parse_loop (pre ++ h :: post) v [] =
        Except.error (Primera.print_help, 0) := by
  induction pre with
  | nil => intro v; exact console_loop_help h post v [] hh
  | cons a pre ih =>
    intro v
    have ha := hpre a (List.mem_cons_self _ _)
    have hpre2 : ∀ a ∈ pre, ¬ is_help a := fun b hb => hpre b (List.mem_cons_of_mem _ hb)
    rw [console_positionals_cons] at hpos
    by_cases hv : is_verbose a
    · simp only [hv, not_true_eq_false, and_false, if_false] at hpos
      rw [List.cons_append, console_loop_verbose a _ v [] ha hv]
      exact ih hpre2 hpos _
    · simp only [ha, hv, not_false_eq_true, and_self, if_true, List.length_cons] at hpos
      have hnil : Primera.positionals pre = [] := List.length_eq_zero.mp (by omega)
      rw [List.cons_append, console_loop_positional a _ v [] ha hv]
      simp only [if_true]
      exact console_help_after_flags pre h post hh hpre2 hnil _ _

end Docserver

/-! ## The console variant: `main` -/

namespace Docserver

/-- An argument list without help flag has no help item. -/
theorem tokens_no_help :
    ∀ (n : Nat) (args : List Str), args.length ≤ n → (∀ a ∈ args, ¬ is_help a) →
      Segunda.Token.help ∉ Segunda.tokens args := by
  intro n
  induction n with
  | zero =>
    intro args hlen _
    have : args = [] := List.length_eq_zero.mp (Nat.le_zero.mp hlen)
    subst this
    simp [Segunda.tokens]
  | succ n ih =>
    intro args hlen hno
    cases args with
    | nil => simp [Segunda.tokens]
    | cons a rest =>
      have ha := hno a (List.mem_cons_self _ _)
      have hno2 : ∀ b ∈ rest, ¬ is_help b := fun b hb => hno b (List.mem_cons_of_mem _ hb)
      have hrest : rest.length ≤ n := by simpa using hlen
      have ih1 := ih rest hrest hno2
      rw [Segunda.tokens.eq_def]
      simp only [ha, if_false]
      by_cases hv : is_verbose a
      · simp [hv, ih1]
      · by_cases hp : is_port_flag a
        · cases rest with
          | nil => simp [hv, hp]
          | cons value rest2 =>
            have hrest2 : rest2.length ≤ n := by
              simp only [List.length_cons] at hrest
              omega
            have ih2 := ih rest2 hrest2 (fun b hb => hno2 b (List.mem_cons_of_mem _ hb))
            simp [hv, hp, ih2]
        · simp [hv, hp, ih1]

/-- The run of the console program when the argument loop returns early. -/
theorem console_main_early (strerror : Int → Str) (fs : FileAnswer) (dangling : Option Str)
    (argv : List Str) (events : List Event) (code : Int)
    (h : Primera.parse_loop (argv.drop 1) false [] = Except.error (events, code)) :
    Primera.main strerror fs dangling argv =
      { trace := events, outcome := Primera.Outcome.exit code } := by
  simp only [Primera.main, h]

theorem stdout_of_append (xs ys : List Event) :
    stdout_of (xs ++ ys) = stdout_of xs ++ stdout_of ys := by
  induction xs with
  | nil => rfl
  | cons e xs ih => cases e <;> simp [stdout_of, ih]

theorem stderr_of_append (xs ys : List Event) :
    stderr_of (xs ++ ys) = stderr_of xs ++ stderr_of ys := by
  induction xs with
  | nil => rfl
  | cons e xs ih => cases e <;> simp [stderr_of, ih]

/-- The console `read_all` writes nothing to the standard streams. -/
theorem console_read_all_silent (fs : FileAnswer) (path : Str) :
    stdout_of (Primera.read_all fs path { trace := [], mapping := none }).2.trace = [] ∧
    stderr_of (Primera.read_all fs path { trace := [], mapping := none }).2.trace = [] := by
  cases fs with
  | open_fails e => simp [Primera.read_all, Primera.World.emit, stdout_of, stderr_of]
  | fstat_fails fd e => simp [Primera.read_all, Primera.World.emit, stdout_of, stderr_of]
  | mmap_fails fd n e => simp [Primera.read_all, Primera.World.emit, stdout_of, stderr_of]
  | mapped fd contents =>
    by_cases h : contents.length = 0 <;>
      simp [Primera.read_all, Primera.World.emit, Primera.SafeMap.destroy, stdout_of,
        stderr_of, h]

/-- The console program when `read_all` fails: the error paths of `main`. `EACCES` gives
the `403 Forbidden` line, `ENOENT` the `404 Not Found` line, both followed by the line
end `send_response` adds, with exit code 0; any other `errno` writes nothing to standard
output, writes the error to standard error and exits with code 1. -/
theorem console_read_failure (strerror : Int → Str) (fs : FileAnswer) (dangling : Option Str)
    (argv : List Str) (v : Bool) (path : Str) (e : Int)
    (hargs : Primera.parse_loop (argv.drop 1) false [] = Except.ok (v, path))
    (hpath : path ≠ [])
    (hread : (Primera.read_all fs path { trace := [], mapping := none }).1 = Except.error e) :
    (e = EACCES →
      stdout_of (Primera.main strerror fs dangling argv).trace = str "403 Forbidden\n\n" ∧
      (Primera.main strerror fs dangling argv).outcome = Primera.Outcome.exit 0) ∧
    (e = ENOENT →
      stdout_of (Primera.main strerror fs dangling argv).trace = str "404 Not Found\n\n" ∧
      (Primera.main strerror fs dangling argv).outcome = Primera.Outcome.exit 0) ∧
    (e ≠ EACCES → e ≠ ENOENT →
      stdout_of (Primera.main strerror fs dangling argv).trace = [] ∧
      stderr_of (Primera.main strerror fs dangling argv).trace =
        str "Error: " ++ strerror e ++ str "\n" ∧
      (Primera.main strerror fs dangling argv).outcome = Primera.Outcome.exit 1) := by
  have hmain : Primera.main strerror fs dangling argv =
      match Primera.read_all fs path { trace := [], mapping := none } with
      | (Except.error e, w) =>
        if e = EACCES then
          match Primera.send_response dangling (str "403 Forbidden\n") { size := 0 } w with
          | Except.ok w => { trace := w.trace, outcome := Primera.Outcome.exit 0 }
          | Except.error w => { trace := w.trace, outcome := Primera.Outcome.fault }
        else if e = ENOENT then
          match Primera.send_response dangling (str "404 Not Found\n") { size := 0 } w with
          | Except.ok w => { trace := w.trace, outcome := Primera.Outcome.exit 0 }
          | Except.error w => { trace := w.trace, outcome := Primera.Outcome.fault }
        else
          { trace := w.trace ++ [Event.err (str "Error: " ++ strerror e ++ str "\n")],
            outcome := Primera.Outcome.exit 1 }
      | (Except.ok result_value, w) =>
        match Primera.send_response dangling
            (str "Content-Length: " ++ decimal result_value.copy.get.size ++ str "\n")
            result_value.copy.get w with
        | Except.error w => { trace := w.trace, outcome := Primera.Outcome.fault }
        | Except.ok w =>
          { trace := (result_value.destroy (result_value.copy.destroy w)).trace,
            outcome := Primera.Outcome.exit 0 } := by
    simp only [Primera.main, hargs, hpath, if_false]
  rw [hmain]
  have hsilent := console_read_all_silent fs path
  rcases hr : Primera.read_all fs path { trace := [], mapping := none } with ⟨r, w⟩
  rw [hr] at hread hsilent
  simp only at hread hsilent
  subst hread
  refine ⟨fun h => ?_, fun h => ?_, fun h1 h2 => ?_⟩
  · subst h
    simp [Primera.send_response, Primera.World.emit, stdout_of, str, stdout_of_append,
      hsilent.1]
  · subst h
    simp [Primera.send_response, Primera.World.emit, stdout_of, str, ENOENT, EACCES,
      stdout_of_append, hsilent.1]
  · simp [h1, h2, stdout_of, stderr_of, stdout_of_append, stderr_of_append, hsilent.1,
      hsilent.2]

/-- The network `read_all` keeps the lifecycle of its mapping: one `munmap` after the
read of the view when `mmap` succeeded, none otherwise. -/
theorem network_read_all_lifecycle (fs : FileAnswer) (path : Str) :
    lifecycle_ok false (Segunda.read_all fs path).2 = true := by
  cases fs <;> simp [Segunda.read_all, lifecycle_ok]

end Docserver

/-! ## General forms of the two defects -/

namespace Docserver

/-- Items that are stepped over hand the rest of the command line to the same loop. -/
theorem run_tokens_prefix (pre rest : List Segunda.Token) (hpre : ∀ t ∈ pre, t.passable) :
    ∀ (g : Segunda.Globals) (fs : Bool), ∃ (g2 : Segunda.Globals) (fs2 : Bool),
      Segunda.run_tokens (pre ++ rest) g fs = Segunda.run_tokens rest g2 fs2 := by
  induction pre with
  | nil => intro g fs; exact ⟨g, fs, rfl⟩
  | cons t pre ih =>
    have ih2 := ih (fun t ht => hpre t (List.mem_cons_of_mem _ ht))
    have ht := hpre t (List.mem_cons_self _ _)
    intro g fs
    cases t with
    | help => exact absurd ht (by simp [Segunda.Token.passable])
    | verbose => exact ih2 _ _
    | file path => exact ih2 _ _
    | port value =>
      cases value with
      | none => exact absurd ht (by simp [Segunda.Token.passable])
      | some v =>
        obtain ⟨n, hn⟩ := ht
        simp only [List.cons_append, Segunda.run_tokens, hn]
        exact ih2 _ _

/-- A port flag that is the last argument, reached by the loop: `main` writes its
diagnostic, returns `EINVAL` and touches neither file nor socket. -/
theorem network_port_without_value (strerror : Int → Str) (os : Segunda.SocketAnswers)
    (turns : List Segunda.Turn) (argv : List Str) (pre : List Segunda.Token)
    (htok : Segunda.tokens (argv.drop 1) = pre ++ [Segunda.Token.port none])
    (hpre : ∀ t ∈ pre, t.passable) :
    Segunda.main strerror os turns argv =
      { trace := [Event.err (str "Error al analizar argumentos: " ++ strerror EINVAL
          ++ str "\n")],
        phase := Segunda.Phase.terminated EINVAL } := by
  obtain ⟨g2, fs2, h⟩ := run_tokens_prefix pre [Segunda.Token.port none] hpre
    Segunda.initial_globals false
  have hpa : Segunda.parse_args argv Segunda.initial_globals =
      (Segunda.ParseOutcome.error EINVAL, g2, []) := by
    rw [parse_args_eq, htok, h]
    rfl
  rw [main_parse_error strerror os turns argv EINVAL g2 [] hpa]
  rfl

/-- A port flag whose value `std::stoi` rejects, reached by the loop: the exception ends
the process; nothing is written and no code is returned. -/
theorem network_port_malformed (strerror : Int → Str) (os : Segunda.SocketAnswers)
    (turns : List Segunda.Turn) (argv : List Str) (pre post : List Segunda.Token)
    (value : Str) (e : Segunda.Exn)
    (htok : Segunda.tokens (argv.drop 1) = pre ++ Segunda.Token.port (some value) :: post)
    (hpre : ∀ t ∈ pre, t.passable)
    (hvalue : Segunda.stoi value = Except.error e) :
    Segunda.main strerror os turns argv = { trace := [], phase := Segunda.Phase.aborted e } := by
  obtain ⟨g2, fs2, h⟩ := run_tokens_prefix pre (Segunda.Token.port (some value) :: post) hpre
    Segunda.initial_globals false
  have hpa : Segunda.parse_args argv Segunda.initial_globals =
      (Segunda.ParseOutcome.threw e, g2, []) := by
    rw [parse_args_eq, htok, h]
    simp only [Segunda.run_tokens, hvalue]
  exact main_parse_threw strerror os turns argv e g2 [] hpa

/-- An exception ends a run of `main` only when it leaves `parse_args`. -/
theorem main_aborted (strerror : Int → Str) (os : Segunda.SocketAnswers)
    (turns : List Segunda.Turn) (argv : List Str) (e : Segunda.Exn)
    (h : (Segunda.main strerror os turns argv).phase = Segunda.Phase.aborted e) :
    (Segunda.parse_args argv Segunda.initial_globals).1 = Segunda.ParseOutcome.threw e := by
  obtain ⟨sock, bind, listen⟩ := os
  rcases hpa : Segunda.parse_args argv Segunda.initial_globals with ⟨po, g, events⟩
  cases po with
  | threw e2 => simpa [Segunda.main, hpa] using h
  | error code => simp [Segunda.main, hpa] at h
  | ok =>
    cases sock with
    | error code => simp [Segunda.main, hpa, Segunda.make_socket] at h
    | ok sockfd =>
      cases bind with
      | error code => simp [Segunda.main, hpa, Segunda.make_socket] at h
      | ok u =>
        cases listen with
        | error code =>
          simp [Segunda.main, hpa, Segunda.make_socket, Segunda.listen_connection] at h
        | ok u2 =>
          simp only [Segunda.main, hpa, Segunda.make_socket, Segunda.listen_connection] at h
          rcases accept_loop_phase strerror g sockfd turns with hacc | ⟨t, ht, c2, hc2, hp⟩
          · rw [hacc] at h
            simp at h
          · rw [hp] at h
            simp at h

/-- The console program on every non-empty file that can be mapped: the mapping is
released when `read_all` returns, the header is written, and the body is then read
through the dangling view. When the access faults the run ends there; otherwise the bytes
found are written and the mapping is released two more times. -/
theorem console_success_dangling (strerror : Int → Str) (fd : Int) (F : Str)
    (dangling : Option Str) (argv : List Str) (v : Bool) (path : Str)
    (hargs : Primera.parse_loop (argv.drop 1) false [] = Except.ok (v, path))
    (hpath : path ≠ []) (hF : F ≠ []) :
    Primera.main strerror (FileAnswer.mapped fd F) dangling argv =
      match dangling with
      | none =>
        { trace := [Event.sys_open path, Event.sys_fstat fd, Event.sys_mmap F.length fd true,
            Event.sys_close fd, Event.sys_munmap F.length,
            Event.out (str "Content-Length: " ++ decimal F.length ++ str "\n" ++ str "\n"),
            Event.read_view],
          outcome := Primera.Outcome.fault }
      | some g =>
        { trace := [Event.sys_open path, Event.sys_fstat fd, Event.sys_mmap F.length fd true,
            Event.sys_close fd, Event.sys_munmap F.length,
            Event.out (str "Content-Length: " ++ decimal F.length ++ str "\n" ++ str "\n"),
            Event.read_view, Event.out g, Event.sys_munmap F.length,
            Event.sys_munmap F.length],
          outcome := Primera.Outcome.exit 0 } := by
  have hlen : F.length ≠ 0 := fun h => hF (List.length_eq_zero.mp h)
  cases dangling with
  | none =>
    simp only [Primera.main, hargs, hpath, if_false]
    simp [Primera.read_all, Primera.World.emit, Primera.SafeMap.destroy, Primera.SafeMap.copy,
      Primera.SafeMap.get, Primera.send_response, hlen]
  | some g =>
    simp only [Primera.main, hargs, hpath, if_false]
    simp [Primera.read_all, Primera.World.emit, Primera.SafeMap.destroy, Primera.SafeMap.copy,
      Primera.SafeMap.get, Primera.send_response, hlen]

end Docserver

/-! ## The help flag -/

namespace Docserver

/-- The console program at a help flag that has no help flag and at most one positional
argument in front of it: the usage text, exit code 0, nothing else. -/
theorem console_help_exits (strerror : Int → Str) (fs : FileAnswer) (dangling : Option Str)
    (prog : Str) (pre : List Str) (h : Str) (post : List Str)
    (hh : is_help h) (hpre : ∀ a ∈ pre, ¬ is_help a)
    (hpos : (Primera.positionals pre).length ≤ 1) :
    Primera.main strerror fs dangling (prog :: (pre ++ h :: post)) =
      { trace := Primera.print_help, outcome := Primera.Outcome.exit 0 } :=
  console_main_early strerror fs dangling _ _ _
    (console_help_reached pre h post hh hpre hpos false)

/-- The console program at a help flag behind two file arguments: the loop returns at
the second file and the help flag is not reached. -/
theorem console_help_behind_two_files :
    Primera.main (fun _ => []) (FileAnswer.open_fails ENOENT) none
        [str "docserver", str "a", str "b", str "-h"] =
      { trace := [Event.err (str "Error: Multiple files specified.\n")],
        outcome := Primera.Outcome.exit 1 } := rfl

/-- Whenever `parse_args` returns a success, `main` calls `socket` and does not return 0
before it. -/
theorem main_socket_called (strerror : Int → Str) (os : Segunda.SocketAnswers)
    (turns : List Segunda.Turn) (argv : List Str)
    (h : (Segunda.parse_args argv Segunda.initial_globals).1 = Segunda.ParseOutcome.ok) :
    Event.sys_socket ∈ (Segunda.main strerror os turns argv).trace := by
  obtain ⟨sock, bind, listen⟩ := os
  rcases hpa : Segunda.parse_args argv Segunda.initial_globals with ⟨po, g, events⟩
  rw [hpa] at h
  simp only at h
  subst h
  cases sock with
  | error code => simp [Segunda.main, hpa, Segunda.make_socket]
  | ok sockfd =>
    cases bind with
    | error code => simp [Segunda.main, hpa, Segunda.make_socket]
    | ok u =>
      cases listen with
      | error code => simp [Segunda.main, hpa, Segunda.make_socket, Segunda.listen_connection]
      | ok u2 => simp [Segunda.main, hpa, Segunda.make_socket, Segunda.listen_connection]

/-- The network program at every help flag the loop of `parse_args` reaches: the help
text is printed and `main` goes on to call `socket`. -/
theorem network_help_goes_on (strerror : Int → Str) (os : Segunda.SocketAnswers)
    (turns : List Segunda.Turn) (argv : List Str) (tpre tpost : List Segunda.Token)
    (htok : Segunda.tokens (argv.drop 1) = tpre ++ Segunda.Token.help :: tpost)
    (hpass : ∀ t ∈ tpre, t.passable) :
    (Segunda.parse_args argv Segunda.initial_globals).2.2 =
        Segunda.usage_lines.map Event.out ∧
    Event.sys_socket ∈ (Segunda.main strerror os turns argv).trace := by
  have h := run_tokens_help tpre tpost hpass Segunda.initial_globals false
  rw [← htok, ← parse_args_eq] at h
  exact ⟨h.2, main_socket_called strerror os turns argv h.1⟩

end Docserver

/-! ## Runs of the accept loop -/

namespace Docserver

/-- A turn whose `accept` succeeds is handled by `step`, and the loop goes on with the
turns that follow. -/
theorem accept_loop_cons_accepted (strerror : Int → Str) (g : Segunda.Globals)
    (sockfd client : Int) (fs : FileAnswer) (rest : List Segunda.Turn) :
    Segunda.accept_loop strerror g sockfd ({ accept := Except.ok client, file := fs } :: rest) =
      ((Segunda.step strerror g sockfd { accept := Except.ok client, file := fs }).1
          ++ (Segunda.accept_loop strerror g sockfd rest).1,
        (Segunda.accept_loop strerror g sockfd rest).2) := by
  rw [Segunda.accept_loop, step_accepted]

/-- Turns whose `accept` succeeds are handled one after the other, and the loop goes on
with the turns that follow them. -/
theorem accept_loop_append (strerror : Int → Str) (g : Segunda.Globals) (sockfd : Int)
    (before rest : List Segunda.Turn)
    (hbefore : ∀ t ∈ before, ∃ c, t.accept = Except.ok c) :
    Segunda.accept_loop strerror g sockfd (before ++ rest) =
      ((Segunda.accept_loop strerror g sockfd before).1
          ++ (Segunda.accept_loop strerror g sockfd rest).1,
        (Segunda.accept_loop strerror g sockfd rest).2) := by
  induction before with
  | nil => rfl
  | cons t before ih =>
    obtain ⟨acc, file⟩ := t
    obtain ⟨c, hc⟩ := hbefore _ (List.mem_cons_self _ _)
    simp only at hc
    subst hc
    have ih2 := ih (fun t ht => hbefore t (List.mem_cons_of_mem _ ht))
    rw [List.cons_append, accept_loop_cons_accepted, accept_loop_cons_accepted, ih2]
    simp

/-- The run of `main` when the start-up succeeds: the start-up events, then the accept
loop over the turns. -/
theorem main_started (strerror : Int → Str) (os : Segunda.SocketAnswers)
    (turns : List Segunda.Turn) (argv : List Str) (g : Segunda.Globals)
    (events : List Event) (sockfd : Int)
    (hpa : Segunda.parse_args argv Segunda.initial_globals =
      (Segunda.ParseOutcome.ok, g, events))
    (hs : os.socket = Except.ok sockfd) (hb : os.bind = Except.ok ())
    (hl : os.listen = Except.ok ()) :
    Segunda.main strerror os turns argv =
      { trace := events ++
          [Event.sys_socket, Event.sys_bind sockfd (Segunda.to_uint16 g.port),
            Event.sys_listen sockfd 5,
            Event.out (str "Escuchando en el puerto " ++ int_decimal g.port
              ++ str "...\n")]
          ++ (Segunda.accept_loop strerror g sockfd turns).1,
        phase := (Segunda.accept_loop strerror g sockfd turns).2 } := by
  obtain ⟨sock, bind, listen⟩ := os
  simp only at hs hb hl
  subst hs hb hl
  simp [Segunda.main, hpa, Segunda.make_socket, Segunda.listen_connection]

end Docserver

/-! ## The claims -/

namespace Docserver

/-- C1: network variant, success path. On every accepted connection for which `read_all`
succeeds with contents `F` (any chars), exactly one byte sequence is handed to `send`, on
the client socket, and it is `"HTTP/1.1 200 OK\r\nContent-Length: "` followed by the
decimal length of `F`, `"\r\n\r\n"` and `F` itself, unchanged. -/
theorem C1_success_response (strerror : Int → Str) (g : Segunda.Globals)
    (sockfd client : Int) (fs : FileAnswer) (F : Str)
    (h : (Segunda.read_all fs g.file_path).1 = Except.ok F) :
    sent_bytes (Segunda.step strerror g sockfd { accept := Except.ok client, file := fs }).1 =
      [(client, str "HTTP/1.1 200 OK\r\nContent-Length: " ++ decimal F.length
          ++ str "\r\n\r\n" ++ F)] := by
  rw [sent_step_accepted]
  exact sent_respond_ok g client fs F h

/-- C1 at a file of four bytes holding a NUL, a carriage return and a line feed. -/
theorem C1_success_response_witness :
    (Segunda.read_all (FileAnswer.mapped 5 ['a', Char.ofNat 0, '\r', '\n'])
        (str "f")).1 = Except.ok ['a', Char.ofNat 0, '\r', '\n'] ∧
    sent_bytes (Segunda.step (fun _ => [])
        { verbose := true, port := 8080, file_path := str "f" } 3
        { accept := Except.ok 4,
          file := FileAnswer.mapped 5 ['a', Char.ofNat 0, '\r', '\n'] }).1 =
      [(4, str "HTTP/1.1 200 OK\r\nContent-Length: 4\r\n\r\n"
          ++ ['a', Char.ofNat 0, '\r', '\n'])] :=
  ⟨rfl, C1_success_response (fun _ => [])
    { verbose := true, port := 8080, file_path := str "f" } 3 4
    (FileAnswer.mapped 5 ['a', Char.ofNat 0, '\r', '\n']) ['a', Char.ofNat 0, '\r', '\n'] rfl⟩

/-- C2, as stated, fails: the response sent when the file cannot be opened is not a status
line, one `Content-Length` header, a blank line and a body. -/
theorem C2_counterexample :
    ∃ r, sent_bytes (Segunda.step (fun _ => [])
        { verbose := false, port := 8080, file_path := str "missing.txt" } 3
        { accept := Except.ok 4, file := FileAnswer.open_fails ENOENT }).1 = [(4, r)] ∧
      ¬ framed r :=
  ⟨_, rfl, error_response_not_framed⟩

/-- C2, amended: every accepted connection gets exactly one response. When `read_all`
succeeds with `F` the response is the status line `HTTP/1.1 200 OK`, one `Content-Length`
header whose value is the length of `F`, a blank line and the body `F`. When `read_all`
fails the response is a status line, a blank line and a body, with no `Content-Length`
header. -/
theorem C2_framing_by_path (strerror : Int → Str) (g : Segunda.Globals)
    (sockfd client : Int) (fs : FileAnswer) :
    ∃ r, sent_bytes (Segunda.step strerror g sockfd
        { accept := Except.ok client, file := fs }).1 = [(client, r)] ∧
      ((∃ F, (Segunda.read_all fs g.file_path).1 = Except.ok F ∧
          r = str "HTTP/1.1 200 OK" ++ str "\r\nContent-Length: " ++ decimal F.length
            ++ str "\r\n\r\n" ++ F ∧ framed r) ∨
        (∃ e, (Segunda.read_all fs g.file_path).1 = Except.error e ∧
          r = str "HTTP/1.1 500 Internal Server Error" ++ str "\r\n\r\n"
            ++ str "Error al leer el archivo." ∧ bare r ∧ ¬ framed r)) := by
  cases hr : (Segunda.read_all fs g.file_path).1 with
  | ok F =>
    refine ⟨_, sent_step_ok_shape strerror g sockfd client fs F hr, Or.inl ⟨F, rfl, rfl, ?_⟩⟩
    exact ⟨str "HTTP/1.1 200 OK", F, by simp [is_line, str], rfl⟩
  | error e =>
    refine ⟨_, ?_, Or.inr ⟨e, rfl, rfl, ?_, error_response_not_framed⟩⟩
    · rw [sent_step_accepted]
      exact sent_respond_error g client fs e hr
    · exact ⟨str "HTTP/1.1 500 Internal Server Error", str "Error al leer el archivo.",
        by simp [is_line, str], rfl⟩

end Docserver

namespace Docserver

/-- C7: the accept loop as a state machine. Take any run of the loop in which some
connections were accepted before, then a connection is accepted on which `read_all`
fails, then further turns follow. The failing connection is handled by one `step`: it
sends exactly one response, the status line `HTTP/1.1 500 Internal Server Error`, a blank
line and the non-empty text `Error al leer el archivo.`, its last action is to close the
client socket, and the server stays in the state `accepting`. The run consists of the
events of the connections before, the events of that step, and the events of the loop
over the turns that follow, in the state the loop over those turns ends in; so the 500
response is sent between the responses before and after it, and when every later
`accept` succeeds the run ends in `accepting`. When the start-up succeeds the run of
`main` is the start-up followed by that loop. Whatever the file answers are, the loop
leaves `accepting` only by a failed `accept`, `main` reaches `terminated` only from a
failure of `parse_args`, `socket`, `bind`, `listen` or `accept`, and the only other end of
a run is an exception that leaves `parse_args` during the start-up. -/
theorem C7_read_failure_keeps_accepting (strerror : Int → Str) (g : Segunda.Globals)
    (sockfd client : Int) (fs : FileAnswer) (e : Int)
    (before after : List Segunda.Turn)
    (h : (Segunda.read_all fs g.file_path).1 = Except.error e)
    (hbefore : ∀ t ∈ before, ∃ c, t.accept = Except.ok c) :
    (Segunda.step strerror g sockfd { accept := Except.ok client, file := fs }).2 =
        Segunda.Phase.accepting sockfd ∧
    sent_bytes (Segunda.step strerror g sockfd { accept := Except.ok client, file := fs }).1 =
        [(client, str "HTTP/1.1 500 Internal Server Error" ++ str "\r\n\r\n"
          ++ str "Error al leer el archivo.")] ∧
    str "Error al leer el archivo." ≠ [] ∧
    (Segunda.step strerror g sockfd { accept := Except.ok client, file := fs }).1.getLast? =
        some (Event.sys_close client) ∧
    Segunda.accept_loop strerror g sockfd
        (before ++ { accept := Except.ok client, file := fs } :: after) =
      ((Segunda.accept_loop strerror g sockfd before).1
          ++ (Segunda.step strerror g sockfd { accept := Except.ok client, file := fs }).1
          ++ (Segunda.accept_loop strerror g sockfd after).1,
        (Segunda.accept_loop strerror g sockfd after).2) ∧
    sent_bytes (Segunda.accept_loop strerror g sockfd
        (before ++ { accept := Except.ok client, file := fs } :: after)).1 =
      sent_bytes (Segunda.accept_loop strerror g sockfd before).1
        ++ [(client, str "HTTP/1.1 500 Internal Server Error" ++ str "\r\n\r\n"
          ++ str "Error al leer el archivo.")]
        ++ sent_bytes (Segunda.accept_loop strerror g sockfd after).1 ∧
    ((∀ t ∈ after, ∃ c, t.accept = Except.ok c) →
      (Segunda.accept_loop strerror g sockfd
        (before ++ { accept := Except.ok client, file := fs } :: after)).2 =
        Segunda.Phase.accepting sockfd) ∧
    (∀ (os : Segunda.SocketAnswers) (turns : List Segunda.Turn) (argv : List Str)
        (events : List Event),
      Segunda.parse_args argv Segunda.initial_globals = (Segunda.ParseOutcome.ok, g, events) →
      os.socket = Except.ok sockfd → os.bind = Except.ok () → os.listen = Except.ok () →
      Segunda.main strerror os turns argv =
        { trace := events ++
            [Event.sys_socket, Event.sys_bind sockfd (Segunda.to_uint16 g.port),
              Event.sys_listen sockfd 5,
              Event.out (str "Escuchando en el puerto " ++ int_decimal g.port
                ++ str "...\n")]
            ++ (Segunda.accept_loop strerror g sockfd turns).1,
          phase := (Segunda.accept_loop strerror g sockfd turns).2 }) ∧
    (∀ turns : List Segunda.Turn,
      (Segunda.accept_loop strerror g sockfd turns).2 = Segunda.Phase.accepting sockfd ∨
        ∃ t ∈ turns, ∃ c, t.accept = Except.error c ∧
          (Segunda.accept_loop strerror g sockfd turns).2 = Segunda.Phase.terminated c) ∧
    (∀ (os : Segunda.SocketAnswers) (turns : List Segunda.Turn) (argv : List Str) (c : Int),
      (Segunda.main strerror os turns argv).phase = Segunda.Phase.terminated c →
        (Segunda.parse_args argv Segunda.initial_globals).1 = Segunda.ParseOutcome.error c ∨
        os.socket = Except.error c ∨ os.bind = Except.error c ∨ os.listen = Except.error c ∨
        ∃ t ∈ turns, t.accept = Except.error c) ∧
    (∀ (os : Segunda.SocketAnswers) (turns : List Segunda.Turn) (argv : List Str)
        (x : Segunda.Exn),
      (Segunda.main strerror os turns argv).phase = Segunda.Phase.aborted x →
        (Segunda.parse_args argv Segunda.initial_globals).1 = Segunda.ParseOutcome.threw x) := by
  have hsent : sent_bytes
      (Segunda.step strerror g sockfd { accept := Except.ok client, file := fs }).1 =
        [(client, str "HTTP/1.1 500 Internal Server Error" ++ str "\r\n\r\n"
          ++ str "Error al leer el archivo.")] := by
    rw [sent_step_accepted]
    exact sent_respond_error g client fs e h
  have hrun : Segunda.accept_loop strerror g sockfd
        (before ++ { accept := Except.ok client, file := fs } :: after) =
      ((Segunda.accept_loop strerror g sockfd before).1
          ++ (Segunda.step strerror g sockfd { accept := Except.ok client, file := fs }).1
          ++ (Segunda.accept_loop strerror g sockfd after).1,
        (Segunda.accept_loop strerror g sockfd after).2) := by
    rw [accept_loop_append strerror g sockfd before _ hbefore, accept_loop_cons_accepted]
    simp
  refine ⟨rfl, hsent, by simp [str], ?_, hrun, ?_, ?_,
    fun os turns argv events hpa hs hb hl =>
      main_started strerror os turns argv g events sockfd hpa hs hb hl,
    accept_loop_phase strerror g sockfd,
    fun os turns argv c => main_terminated strerror os turns argv c,
    fun os turns argv x => main_aborted strerror os turns argv x⟩
  · rw [step_accepted]
    simp only [List.getLast?_concat]
  · rw [hrun]
    simp only [sent_bytes_append, hsent]
  · intro hafter
    rw [hrun]
    rcases accept_loop_phase strerror g sockfd after with hacc | ⟨t, ht, c, hc, -⟩
    · exact hacc
    · obtain ⟨c2, hc2⟩ := hafter t ht
      rw [hc2] at hc
      exact absurd hc (by simp)

/-- C7 at a run of `main` with three connections: the file is served, then it cannot be
opened, then it is served again. The three responses are 200, 500, 200 and the server is
still accepting. -/
theorem C7_read_failure_keeps_accepting_witness :
    (Segunda.read_all (FileAnswer.open_fails ENOENT) (str "f")).1 = Except.error ENOENT ∧
    (∀ t ∈ [({ accept := Except.ok 4, file := FileAnswer.mapped 5 (str "hi") } :
        Segunda.Turn)], ∃ c, t.accept = Except.ok c) ∧
    sent_bytes (Segunda.accept_loop (fun _ => [])
        { verbose := false, port := 8080, file_path := str "f" } 3
        ([{ accept := Except.ok 4, file := FileAnswer.mapped 5 (str "hi") }] ++
          { accept := Except.ok 6, file := FileAnswer.open_fails ENOENT } ::
          [{ accept := Except.ok 7, file := FileAnswer.mapped 5 (str "hi") }])).1 =
      [(4, str "HTTP/1.1 200 OK\r\nContent-Length: 2\r\n\r\nhi"),
        (6, str "HTTP/1.1 500 Internal Server Error\r\n\r\nError al leer el archivo."),
        (7, str "HTTP/1.1 200 OK\r\nContent-Length: 2\r\n\r\nhi")] ∧
    (Segunda.main (fun _ => [])
        { socket := Except.ok 3, bind := Except.ok (), listen := Except.ok () }
        ([{ accept := Except.ok 4, file := FileAnswer.mapped 5 (str "hi") }] ++
          { accept := Except.ok 6, file := FileAnswer.open_fails ENOENT } ::
          [{ accept := Except.ok 7, file := FileAnswer.mapped 5 (str "hi") }])
        [str "docserver", str "f"]).phase = Segunda.Phase.accepting 3 := by
  have hb : ∀ t ∈ [({ accept := Except.ok 4, file := FileAnswer.mapped 5 (str "hi") } :
      Segunda.Turn)], ∃ c, t.accept = Except.ok c := by
    intro t ht
    rw [List.mem_singleton] at ht
    subst ht
    exact ⟨4, rfl⟩
  have hthm := C7_read_failure_keeps_accepting (fun _ => [])
    { verbose := false, port := 8080, file_path := str "f" } 3 6
    (FileAnswer.open_fails ENOENT) ENOENT
    [{ accept := Except.ok 4, file := FileAnswer.mapped 5 (str "hi") }]
    [{ accept := Except.ok 7, file := FileAnswer.mapped 5 (str "hi") }] rfl hb
  refine ⟨rfl, hb, ?_, ?_⟩
  · rw [hthm.2.2.2.2.2.1]
    rfl
  · rw [hthm.2.2.2.2.2.2.2.1
      { socket := Except.ok 3, bind := Except.ok (), listen := Except.ok () } _
      [str "docserver", str "f"] [] rfl rfl rfl rfl]
    exact hthm.2.2.2.2.2.2.1 (by
      intro t ht
      rw [List.mem_singleton] at ht
      subst ht
      exact ⟨7, rfl⟩)

/-- C9: the framing of a 200 response is unambiguous. For every body `F`, also one that
holds `"\r\n\r\n"` itself, cutting the bytes handed to `send` at the first `"\r\n\r\n"`
gives the head `"HTTP/1.1 200 OK\r\nContent-Length: <n>"` and exactly `F` as the rest,
and reading `<n>` as a decimal number gives the length of `F`. -/
theorem C9_first_blank_line_separates (strerror : Int → Str) (g : Segunda.Globals)
    (sockfd client fd : Int) (F : Str) :
    (sent_bytes (Segunda.step strerror g sockfd
        { accept := Except.ok client, file := FileAnswer.mapped fd F }).1).map
        (fun p => split_first (str "\r\n\r\n") p.2) =
      [some (str "HTTP/1.1 200 OK\r\nContent-Length: " ++ decimal F.length, F)] ∧
    parse_decimal (decimal F.length) = some F.length := by
  refine ⟨?_, parse_decimal_decimal _⟩
  rw [sent_step_accepted, sent_respond_ok g client (FileAnswer.mapped fd F) F rfl]
  simp only [List.map_cons, List.map_nil]
  rw [split_first_ok_response]

end Docserver

namespace Docserver

/-- C10, as stated, fails: a command line with a help flag is accepted by `parse_args`,
and the port flag after the help flag is never read; the port handed to `bind` is the
default 8080, not the value 9000 of the last port flag. -/
theorem C10_counterexample :
    (Segunda.parse_args [str "docserver", str "-h", str "-p", str "9000"]
        Segunda.initial_globals).1 = Segunda.ParseOutcome.ok ∧
    (Segunda.port_values (Segunda.tokens [str "-h", str "-p", str "9000"])).getLast? =
        some (str "9000") ∧
    Segunda.stoi (str "9000") = Except.ok 9000 ∧
    bound_ports (Segunda.main (fun _ => [])
        { socket := Except.ok 3, bind := Except.ok (), listen := Except.ok () } []
        [str "docserver", str "-h", str "-p", str "9000"]).trace = [8080] ∧
    ((9000 : Int) % 65536).toNat ≠ 8080 := by
  refine ⟨rfl, rfl, rfl, rfl, by decide⟩

/-- C10, amended: for every argument list without a help flag that `parse_args` accepts,
when `socket` succeeds exactly one port is handed to `bind`, and it is `p mod 2^16`,
where `p` is the `int` that `std::stoi` reads from the value of the last port flag, or
8080 when there is no port flag. A value in `0..65535` is bound unchanged. -/
theorem C10_port_narrowing (strerror : Int → Str) (os : Segunda.SocketAnswers)
    (turns : List Segunda.Turn) (argv : List Str) (sockfd : Int)
    (hno : ∀ a ∈ argv.drop 1, ¬ is_help a)
    (hacc : (Segunda.parse_args argv Segunda.initial_globals).1 = Segunda.ParseOutcome.ok)
    (hs : os.socket = Except.ok sockfd) :
    ∃ p : Int,
      (match (Segunda.port_values (Segunda.tokens (argv.drop 1))).getLast? with
        | some v => Segunda.stoi v = Except.ok p
        | none => p = 8080) ∧
      bound_ports (Segunda.main strerror os turns argv).trace = [(p % 65536).toNat] ∧
      (0 ≤ p → p < 65536 →
        bound_ports (Segunda.main strerror os turns argv).trace = [p.toNat]) := by
  have hhelp := tokens_no_help _ (argv.drop 1) (Nat.le_refl _) hno
  have hport := run_tokens_port _ hhelp Segunda.initial_globals false
  have hsilent := run_tokens_silent _ hhelp Segunda.initial_globals false
  rw [← parse_args_eq] at hport hsilent
  rcases hpa : Segunda.parse_args argv Segunda.initial_globals with ⟨po, g, events⟩
  rw [hpa] at hport hsilent hacc
  simp only at hport hsilent hacc
  subst hacc
  subst hsilent
  have hb := main_bound_ports strerror os turns argv g [] sockfd hpa rfl hs
  refine ⟨g.port, ?_, hb, ?_⟩
  · have hp := hport rfl
    cases hl : (Segunda.port_values (Segunda.tokens (argv.drop 1))).getLast? with
    | none => rw [hl] at hp; exact hp
    | some v => rw [hl] at hp; exact hp
  · intro h0 h1
    rw [hb, Segunda.to_uint16, Int.emod_eq_of_lt h0 h1]

/-- C10 at the two values the claim names: 73616 is bound as 8080, -1 as 65535. -/
theorem C10_port_narrowing_witness :
    (∀ a ∈ [str "docserver", str "-p", str "73616", str "f"].drop 1, ¬ is_help a) ∧
    Segunda.stoi (str "73616") = Except.ok 73616 ∧
    bound_ports (Segunda.main (fun _ => [])
        { socket := Except.ok 3, bind := Except.ok (), listen := Except.ok () } []
        [str "docserver", str "-p", str "73616", str "f"]).trace = [8080] ∧
    bound_ports (Segunda.main (fun _ => [])
        { socket := Except.ok 3, bind := Except.ok (), listen := Except.ok () } []
        [str "docserver", str "--port", str "-1", str "f"]).trace = [65535] := by
  refine ⟨by decide, rfl, ?_, ?_⟩
  · obtain ⟨p, hp, hb, -⟩ := C10_port_narrowing (fun _ => [])
      { socket := Except.ok 3, bind := Except.ok (), listen := Except.ok () } []
      [str "docserver", str "-p", str "73616", str "f"] 3 (by decide) rfl rfl
    have hv : Segunda.stoi (str "73616") = Except.ok p := hp
    have h2 : Segunda.stoi (str "73616") = Except.ok 73616 := rfl
    rw [h2] at hv
    simp only [Except.ok.injEq] at hv
    rw [hb, ← hv]
    rfl
  · obtain ⟨p, hp, hb, -⟩ := C10_port_narrowing (fun _ => [])
      { socket := Except.ok 3, bind := Except.ok (), listen := Except.ok () } []
      [str "docserver", str "--port", str "-1", str "f"] 3 (by decide) rfl rfl
    have hv : Segunda.stoi (str "-1") = Except.ok p := hp
    have h2 : Segunda.stoi (str "-1") = Except.ok (-1) := rfl
    rw [h2] at hv
    simp only [Except.ok.injEq] at hv
    rw [hb, ← hv]
    rfl

end Docserver

namespace Docserver

/-- C6: what the network program does on the two kinds of command line the claim names.
A port flag without value: `parse_args` returns `EINVAL`, `main` writes a diagnostic to
standard error and returns `EINVAL`, no socket is created. A port flag whose value is
`abc` or empty: `std::stoi` throws `std::invalid_argument`, nothing catches it, and the
process is aborted without any diagnostic of the program and without the exit code
`EINVAL`. -/
theorem C6_malformed_port_aborts :
    Segunda.main (fun _ => str "Invalid argument")
        { socket := Except.ok 3, bind := Except.ok (), listen := Except.ok () } []
        [str "docserver", str "file.txt", str "-p"] =
      { trace := [Event.err (str "Error al analizar argumentos: Invalid argument\n")],
        phase := Segunda.Phase.terminated EINVAL } ∧
    Segunda.main (fun _ => str "Invalid argument")
        { socket := Except.ok 3, bind := Except.ok (), listen := Except.ok () } []
        [str "docserver", str "-p", str "abc", str "file.txt"] =
      { trace := [], phase := Segunda.Phase.aborted Segunda.Exn.invalid_argument } ∧
    Segunda.main (fun _ => str "Invalid argument")
        { socket := Except.ok 3, bind := Except.ok (), listen := Except.ok () } []
        [str "docserver", str "-p", str "", str "file.txt"] =
      { trace := [], phase := Segunda.Phase.aborted Segunda.Exn.invalid_argument } := by
  refine ⟨rfl, rfl, rfl⟩

/-- C4: what the network program does on a command line with a help flag. After the
help text `parse_args` returns the same success as for a served file, and `main` goes on
to create a socket, bind it, listen on it and wait in `accept`: the program does not exit
with code 0. With a port flag in front of the help flag that port is bound. -/
theorem C4_network_help_starts_server :
    Segunda.main (fun _ => [])
        { socket := Except.ok 3, bind := Except.ok (), listen := Except.ok () } []
        [str "docserver", str "--help"] =
      { trace := Segunda.usage_lines.map Event.out ++
          [Event.sys_socket, Event.sys_bind 3 8080, Event.sys_listen 3 5,
            Event.out (str "Escuchando en el puerto 8080...\n")],
        phase := Segunda.Phase.accepting 3 } ∧
    Segunda.main (fun _ => [])
        { socket := Except.ok 3, bind := Except.ok (), listen := Except.ok () } []
        [str "docserver", str "-p", str "80", str "-h"] =
      { trace := Segunda.usage_lines.map Event.out ++
          [Event.sys_socket, Event.sys_bind 3 80, Event.sys_listen 3 5,
            Event.out (str "Escuchando en el puerto 80...\n")],
        phase := Segunda.Phase.accepting 3 } := by
  refine ⟨rfl, rfl⟩

end Docserver

namespace Docserver

/-- C3: the console program on a readable file that holds the one byte `x`. The temporary
`SafeMap` of `read_all` releases the mapping before `main` reads it, so the body is read
through a dangling view. When that access faults the run ends there, after the header and
without the body; when it finds other bytes (here `y`) these are written in place of the
contents of the file. -/
theorem C3_body_read_after_munmap :
    Primera.main (fun _ => []) (FileAnswer.mapped 3 (str "x")) none
        [str "docserver", str "f"] =
      { trace := [Event.sys_open (str "f"), Event.sys_fstat 3, Event.sys_mmap 1 3 true,
          Event.sys_close 3, Event.sys_munmap 1,
          Event.out (str "Content-Length: 1\n\n"), Event.read_view],
        outcome := Primera.Outcome.fault } ∧
    stdout_of (Primera.main (fun _ => []) (FileAnswer.mapped 3 (str "x")) (some (str "y"))
        [str "docserver", str "f"]).trace = str "Content-Length: 1\n\ny" := by
  refine ⟨rfl, rfl⟩

/-- C8: the trace of the console program on a readable file that holds the one byte `x`,
when the read through the dangling view does not fault. The mapping is released three
times, by the temporary of `read_all`, by `safe_map` and by `result`, and the view is
read after the first release. The lifecycle of the specification does not hold. -/
theorem C8_console_unmaps_three_times :
    (Primera.main (fun _ => []) (FileAnswer.mapped 3 (str "x")) (some (str "y"))
        [str "docserver", str "f"]).trace =
      [Event.sys_open (str "f"), Event.sys_fstat 3, Event.sys_mmap 1 3 true,
        Event.sys_close 3, Event.sys_munmap 1,
        Event.out (str "Content-Length: 1\n\n"), Event.read_view, Event.out (str "y"),
        Event.sys_munmap 1, Event.sys_munmap 1] ∧
    munmap_count (Primera.main (fun _ => []) (FileAnswer.mapped 3 (str "x"))
        (some (str "y")) [str "docserver", str "f"]).trace = 3 ∧
    lifecycle_ok false (Primera.main (fun _ => []) (FileAnswer.mapped 3 (str "x"))
        (some (str "y")) [str "docserver", str "f"]).trace = false := by
  refine ⟨rfl, rfl, rfl⟩

end Docserver
